import Mathlib

/-!
Verification of the SOAR architecture schema validator and graph query layer.

The development shallowly embeds the validation core of the repository:

* `src/lib/schema.ts` — the Zod schemas (`ArchitectureNodeSchema`,
  `ArchitectureConnectionSchema`, `ArchitectureSchema`, `AnalysisResultSchema`),
  the `validateArchitecture` entry point and `formatZodErrors`.
* `src/store/architectureStore.ts` — the query helpers `getNode`,
  `getNodeConnections` and `getVisibleNodes`.

JSON values are modelled by the inductive `Json` (numbers as rationals —
every check the schema performs on a number is an order or integrality
check, which `ℚ` captures exactly).  The Zod parsers are modelled as total
functions `Json → Except (List Issue) α` that accumulate *all* issues, in
the order Zod reports them: object fields in shape-declaration order, array
elements in index order, an array's `min` check before its elements, and
each issue carrying its path from the root.  `z.object` runs in its default
"strip" mode: undeclared keys are ignored and absent from the parsed data.
-/

namespace Soar

/-- A deserialized JSON value (the `unknown` input of `validateArchitecture`). -/
inductive Json where
  | null : Json
  | bool (b : Bool) : Json
  | num (q : ℚ) : Json
  | str (s : String) : Json
  | arr (items : List Json) : Json
  | obj (fields : List (String × Json)) : Json

/-- The JavaScript `typeof`-style name Zod reports for a value. -/
def jsonTypeName : Json → String
  | .null => "null"
  | .bool _ => "boolean"
  | .num _ => "number"
  | .str _ => "string"
  | .arr _ => "array"
  | .obj _ => "object"

/-- One component of a Zod issue path: an object key or an array index. -/
inductive PathItem where
  | key (k : String)
  | idx (n : Nat)
deriving DecidableEq

/-- A Zod issue: path from the root, human-readable message, machine code. -/
structure Issue where
  path : List PathItem
  message : String
  code : String
deriving DecidableEq

/-- Parse result of one schema: the typed value, or every collected issue. -/
abbrev P (α : Type) := Except (List Issue) α

/-- Combine two parse results the way Zod's object/array parsing does:
both succeed, or the issue lists are concatenated left-to-right. -/
def pseq {α β : Type} : P (α → β) → P α → P β
  | .ok f, .ok a => .ok (f a)
  | .ok _, .error e => .error e
  | .error e, .ok _ => .error e
  | .error e₁, .error e₂ => .error (e₁ ++ e₂)

/-- The issues of a parse result (empty on success). -/
def errsOf {α : Type} : P α → List Issue
  | .ok _ => []
  | .error e => e

/-- Prefix every issue path with an object key (Zod's path extension). -/
def atKey {α : Type} (k : String) : P α → P α
  | .ok a => .ok a
  | .error es => .error (es.map fun i => ⟨PathItem.key k :: i.path, i.message, i.code⟩)

/-- Prefix every issue path with an array index. -/
def atIdx {α : Type} (n : Nat) : P α → P α
  | .ok a => .ok a
  | .error es => .error (es.map fun i => ⟨PathItem.idx n :: i.path, i.message, i.code⟩)

/-- First field bound to a key in a JS object (keys are unique post-`JSON.parse`). -/
def lookupField : List (String × Json) → String → Option Json
  | [], _ => none
  | (k', v) :: fs, k => if k' = k then some v else lookupField fs k

/-- Zod `invalid_type` issue at the current location. -/
def typeIssue (expected : String) (j : Json) : Issue :=
  ⟨[], "Expected " ++ expected ++ ", received " ++ jsonTypeName j, "invalid_type"⟩

/-- Zod issue for a missing required object field. -/
def requiredIssue (k : String) : Issue :=
  ⟨[PathItem.key k], "Required", "invalid_type"⟩

/-- A required object field: missing keys yield Zod's `Required` issue. -/
def reqField {α : Type} (fs : List (String × Json)) (k : String) (p : Json → P α) : P α :=
  match lookupField fs k with
  | none => .error [requiredIssue k]
  | some v => atKey k (p v)

/-- An `.optional()` object field: a missing key parses to `none`. -/
def optField {α : Type} (fs : List (String × Json)) (k : String) (p : Json → P α) :
    P (Option α) :=
  match lookupField fs k with
  | none => .ok none
  | some v => atKey k ((p v).map some)

/-- Parser for `z.string()`. -/
def parseString (j : Json) : P String :=
  match j with
  | .str s => .ok s
  | _ => .error [typeIssue "string" j]

/-- Parser for `z.string().min(1, msg)` — the only string length bound in the schema. -/
def parseNonEmptyString (msg : String) (j : Json) : P String :=
  match j with
  | .str s => if s.length < 1 then .error [⟨[], msg, "too_small"⟩] else .ok s
  | _ => .error [typeIssue "string" j]

/-- Parser for `z.number()`. -/
def parseNumber (j : Json) : P ℚ :=
  match j with
  | .num q => .ok q
  | _ => .error [typeIssue "number" j]

/-- Parser for `z.number().positive()` — a `too_small` issue unless strictly positive. -/
def parsePositiveNumber (j : Json) : P ℚ :=
  match j with
  | .num q => if 0 < q then .ok q else .error [⟨[], "Number must be greater than 0", "too_small"⟩]
  | _ => .error [typeIssue "number" j]

/-- Parser for `z.number().int().positive()` — both checks run, so both can report. -/
def parsePositiveInt (j : Json) : P ℚ :=
  match j with
  | .num q =>
    match (if q.isInt then ([] : List Issue)
           else [⟨[], "Expected integer, received float", "invalid_type"⟩]) ++
          (if 0 < q then ([] : List Issue)
           else [⟨[], "Number must be greater than 0", "too_small"⟩]) with
    | [] => .ok q
    | es => .error es
  | _ => .error [typeIssue "number" j]

/-- Parser for `z.boolean()`. -/
def parseBoolean (j : Json) : P Bool :=
  match j with
  | .bool b => .ok b
  | _ => .error [typeIssue "boolean" j]

/-- Parser for `z.record(z.string(), z.any())` — any object passes through unchanged. -/
def parseRecordAny (j : Json) : P (List (String × Json)) :=
  match j with
  | .obj fs => .ok fs
  | _ => .error [typeIssue "object" j]

/-! ### The closed enums of the schema -/

/-- The `NodeTypeSchema` enum: the twelve node kinds (`class` is `class_` — Lean keyword). -/
inductive NodeType where
  | service | module | class_ | function | database | cache | queue
  | gateway | external | container | region | cluster
deriving DecidableEq

/-- Wire string of a node kind. -/
def NodeType.toWire : NodeType → String
  | .service => "service"
  | .module => "module"
  | .class_ => "class"
  | .function => "function"
  | .database => "database"
  | .cache => "cache"
  | .queue => "queue"
  | .gateway => "gateway"
  | .external => "external"
  | .container => "container"
  | .region => "region"
  | .cluster => "cluster"

/-- Decode a node kind; strings outside the closed set are rejected. -/
def nodeTypeOfString : String → Option NodeType
  | "service" => some .service
  | "module" => some .module
  | "class" => some .class_
  | "function" => some .function
  | "database" => some .database
  | "cache" => some .cache
  | "queue" => some .queue
  | "gateway" => some .gateway
  | "external" => some .external
  | "container" => some .container
  | "region" => some .region
  | "cluster" => some .cluster
  | _ => none

/-- The `ConnectionTypeSchema` enum: the nine edge kinds (`import` is `import_` — Lean keyword). -/
inductive ConnectionType where
  | http | grpc | websocket | database | queue | import_ | inheritance | composition | event
deriving DecidableEq

/-- Wire string of an edge kind. -/
def ConnectionType.toWire : ConnectionType → String
  | .http => "http"
  | .grpc => "grpc"
  | .websocket => "websocket"
  | .database => "database"
  | .queue => "queue"
  | .import_ => "import"
  | .inheritance => "inheritance"
  | .composition => "composition"
  | .event => "event"

/-- Decode an edge kind. -/
def connectionTypeOfString : String → Option ConnectionType
  | "http" => some .http
  | "grpc" => some .grpc
  | "websocket" => some .websocket
  | "database" => some .database
  | "queue" => some .queue
  | "import" => some .import_
  | "inheritance" => some .inheritance
  | "composition" => some .composition
  | "event" => some .event
  | _ => none

/-- The `HealthStatusSchema` enum. -/
inductive HealthStatus where
  | healthy | degraded | unhealthy | unknown
deriving DecidableEq

def HealthStatus.toWire : HealthStatus → String
  | .healthy => "healthy"
  | .degraded => "degraded"
  | .unhealthy => "unhealthy"
  | .unknown => "unknown"

def healthStatusOfString : String → Option HealthStatus
  | "healthy" => some .healthy
  | "degraded" => some .degraded
  | "unhealthy" => some .unhealthy
  | "unknown" => some .unknown
  | _ => none

/-- The `dataFlow` enum of a connection. -/
inductive DataFlow where
  | request | response | stream | event
deriving DecidableEq

def DataFlow.toWire : DataFlow → String
  | .request => "request"
  | .response => "response"
  | .stream => "stream"
  | .event => "event"

def dataFlowOfString : String → Option DataFlow
  | "request" => some .request
  | "response" => some .response
  | "stream" => some .stream
  | "event" => some .event
  | _ => none

/-- The `DetailLevelSchema` enum. -/
inductive DetailLevel where
  | overview | service | module | code
deriving DecidableEq

def DetailLevel.toWire : DetailLevel → String
  | .overview => "overview"
  | .service => "service"
  | .module => "module"
  | .code => "code"

def detailLevelOfString : String → Option DetailLevel
  | "overview" => some .overview
  | "service" => some .service
  | "module" => some .module
  | "code" => some .code
  | _ => none

/-- The `layout.type` enum. -/
inductive LayoutType where
  | force | hierarchical | radial | manual
deriving DecidableEq

def LayoutType.toWire : LayoutType → String
  | .force => "force"
  | .hierarchical => "hierarchical"
  | .radial => "radial"
  | .manual => "manual"

def layoutTypeOfString : String → Option LayoutType
  | "force" => some .force
  | "hierarchical" => some .hierarchical
  | "radial" => some .radial
  | "manual" => some .manual
  | _ => none

/-- Generic `z.enum` parser over a decode function. -/
def parseEnum {α : Type} (ofString : String → Option α) (j : Json) : P α :=
  match j with
  | .str s =>
    match ofString s with
    | some a => .ok a
    | none => .error [⟨[], "Invalid enum value, received " ++ s, "invalid_enum_value"⟩]
  | _ => .error [typeIssue "enum value" j]

/-! ### The typed data model (the TypeScript types inferred from the schemas) -/

/-- The `Position3DSchema` shape: a point in 3D space. -/
structure Position3D where
  x : ℚ
  y : ℚ
  z : ℚ
deriving DecidableEq

/-- The `NodeMetricsSchema` shape: all-optional live metrics. -/
structure NodeMetrics where
  requestsPerSecond : Option ℚ
  latencyMs : Option ℚ
  errorRate : Option ℚ
  cpuPercent : Option ℚ
  memoryPercent : Option ℚ
  connections : Option ℚ
deriving DecidableEq

/-- The `ArchitectureNode` type: recursive — children own their subtrees (a forest).
An inductive rather than a structure because of the nested recursion. -/
inductive ArchitectureNode where
  | mk
    (id : String)
    (name : String)
    (type : NodeType)
    (description : Option String)
    (position : Option Position3D)
    (color : Option String)
    (size : Option ℚ)
    (parentId : Option String)
    (children : Option (List ArchitectureNode))
    (filePath : Option String)
    (lineStart : Option ℚ)
    (lineEnd : Option ℚ)
    (technology : Option String)
    (language : Option String)
    (framework : Option String)
    (health : Option HealthStatus)
    (metrics : Option NodeMetrics)
    (region : Option String)
    (instances : Option ℚ)
    (metadata : Option (List (String × Json)))

/-- The node's `id` field. -/
def nodeId : ArchitectureNode → String
  | .mk i _ _ _ _ _ _ _ _ _ _ _ _ _ _ _ _ _ _ _ => i

/-- The node's `children` field. -/
def nodeChildren : ArchitectureNode → Option (List ArchitectureNode)
  | .mk _ _ _ _ _ _ _ _ ch _ _ _ _ _ _ _ _ _ _ _ => ch

/-- The `ArchitectureConnection` type: a directed edge between node ids. -/
structure ArchitectureConnection where
  id : String
  sourceId : String
  targetId : String
  type : ConnectionType
  label : Option String
  color : Option String
  thickness : Option ℚ
  animated : Option Bool
  bidirectional : Option Bool
  dataFlow : Option DataFlow
  requestsPerSecond : Option ℚ
  latencyMs : Option ℚ
  errorRate : Option ℚ
  metadata : Option (List (String × Json))

/-- The `LayoutSchema` shape: advisory layout hints. -/
structure Layout where
  type : LayoutType
  spacing : Option ℚ
  layers : Option (List (List String))

/-- The `DefaultViewSchema` shape: advisory camera defaults. -/
structure DefaultView where
  position : Position3D
  target : Position3D
  detailLevel : DetailLevel
deriving DecidableEq

/-- The `Architecture` type: the root aggregate of the graph. -/
structure Architecture where
  name : String
  version : String
  description : Option String
  generatedAt : Option String
  sourceRepository : Option String
  nodes : List ArchitectureNode
  connections : List ArchitectureConnection
  layout : Option Layout
  defaultView : Option DefaultView

/-- The `AnalysisResult` type: the full analysis envelope. -/
structure AnalysisResult where
  architecture : Architecture
  summary : String
  insights : List String
  warnings : List String

/-! ### Size lemmas for descending through `lookupField` -/

theorem mem_of_lookupField {fs : List (String × Json)} {k : String} {v : Json}
    (h : lookupField fs k = some v) : (k, v) ∈ fs := by
  induction fs with
  | nil => simp [lookupField] at h
  | cons p rest ih =>
    obtain ⟨k', v'⟩ := p
    by_cases hk : k' = k
    · subst hk
      simp [lookupField] at h
      subst h
      exact List.mem_cons_self _ _
    · simp [lookupField, hk] at h
      exact List.mem_cons_of_mem _ (ih h)

theorem sizeOf_lookupField {fs : List (String × Json)} {k : String} {v : Json}
    (h : lookupField fs k = some v) : sizeOf v < sizeOf fs := by
  have h1 : sizeOf (k, v) < sizeOf fs := List.sizeOf_lt_of_mem (mem_of_lookupField h)
  simp at h1
  omega

theorem sizeOf_lookupField_arr {fs : List (String × Json)} {k : String} {xs : List Json}
    (h : lookupField fs k = some (Json.arr xs)) : sizeOf xs < sizeOf fs := by
  have h1 := sizeOf_lookupField h
  simp at h1
  omega

/-! ### The component-schema parsers -/

/-- Parser for `Position3DSchema`. -/
def parsePosition3D (j : Json) : P Position3D :=
  match j with
  | .obj fs =>
    pseq (pseq (pseq (.ok Position3D.mk)
      (reqField fs "x" parseNumber))
      (reqField fs "y" parseNumber))
      (reqField fs "z" parseNumber)
  | _ => .error [typeIssue "object" j]

/-- Parser for `NodeMetricsSchema`. -/
def parseNodeMetrics (j : Json) : P NodeMetrics :=
  match j with
  | .obj fs =>
    pseq (pseq (pseq (pseq (pseq (pseq (.ok NodeMetrics.mk)
      (optField fs "requestsPerSecond" parseNumber))
      (optField fs "latencyMs" parseNumber))
      (optField fs "errorRate" parseNumber))
      (optField fs "cpuPercent" parseNumber))
      (optField fs "memoryPercent" parseNumber))
      (optField fs "connections" parseNumber)
  | _ => .error [typeIssue "object" j]

/-- Parser for `ArchitectureConnectionSchema`. -/
def parseConnection (j : Json) : P ArchitectureConnection :=
  match j with
  | .obj fs =>
    pseq (pseq (pseq (pseq (pseq (pseq (pseq (pseq (pseq (pseq (pseq (pseq (pseq (pseq
      (.ok ArchitectureConnection.mk)
      (reqField fs "id" (parseNonEmptyString "Connection id is required")))
      (reqField fs "sourceId" (parseNonEmptyString "Connection sourceId is required")))
      (reqField fs "targetId" (parseNonEmptyString "Connection targetId is required")))
      (reqField fs "type" (parseEnum connectionTypeOfString)))
      (optField fs "label" parseString))
      (optField fs "color" parseString))
      (optField fs "thickness" parsePositiveNumber))
      (optField fs "animated" parseBoolean))
      (optField fs "bidirectional" parseBoolean))
      (optField fs "dataFlow" (parseEnum dataFlowOfString)))
      (optField fs "requestsPerSecond" parseNumber))
      (optField fs "latencyMs" parseNumber))
      (optField fs "errorRate" parseNumber))
      (optField fs "metadata" parseRecordAny)
  | _ => .error [typeIssue "object" j]

/-- Parser for `z.array(z.array(z.string()))` (the `layout.layers` field). -/
def parseStringList (i : Nat) (xs : List Json) : P (List String) :=
  match xs with
  | [] => .ok []
  | x :: rest => pseq (pseq (.ok List.cons) (atIdx i (parseString x))) (parseStringList (i+1) rest)

def parseStringArray (j : Json) : P (List String) :=
  match j with
  | .arr xs => parseStringList 0 xs
  | _ => .error [typeIssue "array" j]

def parseLayersList (i : Nat) (xs : List Json) : P (List (List String)) :=
  match xs with
  | [] => .ok []
  | x :: rest =>
    pseq (pseq (.ok List.cons) (atIdx i (parseStringArray x))) (parseLayersList (i+1) rest)

def parseLayersArray (j : Json) : P (List (List String)) :=
  match j with
  | .arr xs => parseLayersList 0 xs
  | _ => .error [typeIssue "array" j]

/-- Parser for `LayoutSchema`. -/
def parseLayout (j : Json) : P Layout :=
  match j with
  | .obj fs =>
    pseq (pseq (pseq (.ok Layout.mk)
      (reqField fs "type" (parseEnum layoutTypeOfString)))
      (optField fs "spacing" parsePositiveNumber))
      (optField fs "layers" parseLayersArray)
  | _ => .error [typeIssue "object" j]

/-- Parser for `DefaultViewSchema`. -/
def parseDefaultView (j : Json) : P DefaultView :=
  match j with
  | .obj fs =>
    pseq (pseq (pseq (.ok DefaultView.mk)
      (reqField fs "position" parsePosition3D))
      (reqField fs "target" parsePosition3D))
      (reqField fs "detailLevel" (parseEnum detailLevelOfString))
  | _ => .error [typeIssue "object" j]

/-! ### `ArchitectureNodeSchema`: the recursive node parser

`z.lazy` recursion in the source; well-founded on the JSON size here.  The
`children` field cannot go through `optField` because the recursive call
needs the termination evidence from the lookup, so its `.optional()`
unfolding is inlined (same semantics: absent key → `none`). -/

mutual

def parseNode (j : Json) : P ArchitectureNode :=
  match j with
  | Json.obj fs =>
    pseq (pseq (pseq (pseq (pseq (pseq (pseq (pseq (pseq (pseq (pseq (pseq (pseq (pseq (pseq
      (pseq (pseq (pseq (pseq (pseq
      (.ok ArchitectureNode.mk)
      (reqField fs "id" (parseNonEmptyString "Node id is required")))
      (reqField fs "name" (parseNonEmptyString "Node name is required")))
      (reqField fs "type" (parseEnum nodeTypeOfString)))
      (optField fs "description" parseString))
      (optField fs "position" parsePosition3D))
      (optField fs "color" parseString))
      (optField fs "size" parsePositiveNumber))
      (optField fs "parentId" parseString))
      (parseChildrenField fs))
      (optField fs "filePath" parseString))
      (optField fs "lineStart" parsePositiveInt))
      (optField fs "lineEnd" parsePositiveInt))
      (optField fs "technology" parseString))
      (optField fs "language" parseString))
      (optField fs "framework" parseString))
      (optField fs "health" (parseEnum healthStatusOfString)))
      (optField fs "metrics" parseNodeMetrics))
      (optField fs "region" parseString))
      (optField fs "instances" parsePositiveInt))
      (optField fs "metadata" parseRecordAny)
  | _ => .error [typeIssue "object" j]
termination_by sizeOf j
decreasing_by
  all_goals simp
  all_goals try omega

/-- The `.optional()` recursive `children` field: absent is `none`, a
non-array is an `invalid_type` issue, an array recurses into the elements. -/
def parseChildrenField (fs : List (String × Json)) : P (Option (List ArchitectureNode)) :=
  match h : lookupField fs "children" with
  | none => .ok none
  | some (Json.arr xs) => atKey "children" ((parseNodeList 0 xs).map some)
  | some v => atKey "children" (.error [typeIssue "array" v])
termination_by sizeOf fs
decreasing_by
  have h1 := sizeOf_lookupField_arr h
  simp
  omega

def parseNodeList (i : Nat) (xs : List Json) : P (List ArchitectureNode) :=
  match xs with
  | [] => .ok []
  | x :: rest => pseq (pseq (.ok List.cons) (atIdx i (parseNode x))) (parseNodeList (i+1) rest)
termination_by sizeOf xs
decreasing_by
  all_goals simp
  omega

end

/-- The array `min(1)` check of `ArchitectureSchema.nodes` as a result. -/
def nodesMinCheck (xs : List Json) : P Unit :=
  if xs.length < 1 then
    .error [⟨[], "Architecture must have at least one node", "too_small"⟩]
  else .ok ()

/-- Parser for `z.array(ArchitectureNodeSchema).min(1, ...)` — Zod emits the length
issue before any per-element issue. -/
def parseNodesArray (j : Json) : P (List ArchitectureNode) :=
  match j with
  | .arr xs => pseq (pseq (.ok (fun _ l => l)) (nodesMinCheck xs)) (parseNodeList 0 xs)
  | _ => .error [typeIssue "array" j]

/-- Parser for `z.array(ArchitectureConnectionSchema)` (no length bound). -/
def parseConnectionList (i : Nat) (xs : List Json) : P (List ArchitectureConnection) :=
  match xs with
  | [] => .ok []
  | x :: rest =>
    pseq (pseq (.ok List.cons) (atIdx i (parseConnection x))) (parseConnectionList (i+1) rest)

def parseConnectionsArray (j : Json) : P (List ArchitectureConnection) :=
  match j with
  | .arr xs => parseConnectionList 0 xs
  | _ => .error [typeIssue "array" j]

/-- Parser for `ArchitectureSchema`. -/
def parseArchitecture (j : Json) : P Architecture :=
  match j with
  | .obj fs =>
    pseq (pseq (pseq (pseq (pseq (pseq (pseq (pseq (pseq
      (.ok Architecture.mk)
      (reqField fs "name" (parseNonEmptyString "Architecture name is required")))
      (reqField fs "version" (parseNonEmptyString "Architecture version is required")))
      (optField fs "description" parseString))
      (optField fs "generatedAt" parseString))
      (optField fs "sourceRepository" parseString))
      (reqField fs "nodes" parseNodesArray))
      (reqField fs "connections" parseConnectionsArray))
      (optField fs "layout" parseLayout))
      (optField fs "defaultView" parseDefaultView)
  | _ => .error [typeIssue "object" j]

/-- Parser for `AnalysisResultSchema`: the full envelope. -/
def parseAnalysisResult (j : Json) : P AnalysisResult :=
  match j with
  | .obj fs =>
    pseq (pseq (pseq (pseq
      (.ok AnalysisResult.mk)
      (reqField fs "architecture" parseArchitecture))
      (reqField fs "summary" parseString))
      (reqField fs "insights" parseStringArray))
      (reqField fs "warnings" parseStringArray)
  | _ => .error [typeIssue "object" j]

/-! ### `validateArchitecture` and `formatZodErrors` -/

/-- The `ValidationError` interface of `schema.ts`. -/
structure ValidationError where
  path : String
  message : String
  code : String
deriving DecidableEq

/-- The discriminated `ValidationResult` of `schema.ts`: `{success: true, data}`
or `{success: false, errors}`. -/
inductive ValidationResult where
  | ok (data : AnalysisResult)
  | err (errors : List ValidationError)

/-- Path rendering of `formatZodErrors`: numeric indices stringified. -/
def renderPathItem : PathItem → String
  | .key k => k
  | .idx n => toString n

/-- Rendering `(err.path || []).join('.') || 'root'`: the empty path renders as `root`. -/
def renderPath (ps : List PathItem) : String :=
  match ps with
  | [] => "root"
  | _ => String.intercalate "." (ps.map renderPathItem)

/-- One formatted error of `formatZodErrors`. -/
def formatIssue (i : Issue) : ValidationError :=
  ⟨renderPath i.path, i.message, i.code⟩

/-- The `formatZodErrors` function: map every collected issue to a dotted-path error. -/
def formatZodErrors (issues : List Issue) : List ValidationError :=
  issues.map formatIssue

/-- The `validateArchitecture` entry point: safe-parse the envelope; report, never throw. -/
def validateArchitecture (j : Json) : ValidationResult :=
  match parseAnalysisResult j with
  | .ok d => .ok d
  | .error es => .err (formatZodErrors es)

/-! ### Serialization to the wire format

`JSON.stringify` on the TypeScript objects: present fields in declaration
order, absent optional fields omitted.  An object is described by segments
`(key, optional value)`; `segsToFields` drops the absent ones. -/

def segsToFields : List (String × Option Json) → List (String × Json)
  | [] => []
  | (_, none) :: rest => segsToFields rest
  | (k, some v) :: rest => (k, v) :: segsToFields rest

/-- Field lookup expressed directly on segments. -/
def segLookup : List (String × Option Json) → String → Option Json
  | [], _ => none
  | (k', o) :: rest, k =>
    if k' = k then o.orElse (fun _ => segLookup rest k) else segLookup rest k

theorem lookupField_segsToFields (segs : List (String × Option Json)) (k : String) :
    lookupField (segsToFields segs) k = segLookup segs k := by
  induction segs with
  | nil => simp [segsToFields, segLookup, lookupField]
  | cons p rest ih =>
    obtain ⟨k', o⟩ := p
    cases o with
    | none =>
      by_cases hk : k' = k <;> simp [segsToFields, segLookup, hk, ih, Option.orElse]
    | some v =>
      by_cases hk : k' = k <;> simp [segsToFields, segLookup, lookupField, hk, ih, Option.orElse]

def position3DToJson (p : Position3D) : Json :=
  Json.obj [("x", Json.num p.x), ("y", Json.num p.y), ("z", Json.num p.z)]

def nodeMetricsSegs (m : NodeMetrics) : List (String × Option Json) :=
  [("requestsPerSecond", m.requestsPerSecond.map Json.num),
   ("latencyMs", m.latencyMs.map Json.num),
   ("errorRate", m.errorRate.map Json.num),
   ("cpuPercent", m.cpuPercent.map Json.num),
   ("memoryPercent", m.memoryPercent.map Json.num),
   ("connections", m.connections.map Json.num)]

def nodeMetricsToJson (m : NodeMetrics) : Json :=
  Json.obj (segsToFields (nodeMetricsSegs m))

def connectionSegs (c : ArchitectureConnection) : List (String × Option Json) :=
  [("id", some (Json.str c.id)),
   ("sourceId", some (Json.str c.sourceId)),
   ("targetId", some (Json.str c.targetId)),
   ("type", some (Json.str c.type.toWire)),
   ("label", c.label.map Json.str),
   ("color", c.color.map Json.str),
   ("thickness", c.thickness.map Json.num),
   ("animated", c.animated.map Json.bool),
   ("bidirectional", c.bidirectional.map Json.bool),
   ("dataFlow", c.dataFlow.map (fun d => Json.str d.toWire)),
   ("requestsPerSecond", c.requestsPerSecond.map Json.num),
   ("latencyMs", c.latencyMs.map Json.num),
   ("errorRate", c.errorRate.map Json.num),
   ("metadata", c.metadata.map Json.obj)]

def connectionToJson (c : ArchitectureConnection) : Json :=
  Json.obj (segsToFields (connectionSegs c))

def layoutSegs (l : Layout) : List (String × Option Json) :=
  [("type", some (Json.str l.type.toWire)),
   ("spacing", l.spacing.map Json.num),
   ("layers", l.layers.map (fun ls => Json.arr (ls.map (fun g => Json.arr (g.map Json.str)))))]

def layoutToJson (l : Layout) : Json :=
  Json.obj (segsToFields (layoutSegs l))

def defaultViewToJson (v : DefaultView) : Json :=
  Json.obj [("position", position3DToJson v.position),
            ("target", position3DToJson v.target),
            ("detailLevel", Json.str v.detailLevel.toWire)]

set_option maxHeartbeats 1000000 in
mutual

def nodeToJson : ArchitectureNode → Json
  | .mk i name ty desc pos col sz par ch fp ls le te la fr he me re inst md =>
    Json.obj (segsToFields
      [("id", some (Json.str i)),
       ("name", some (Json.str name)),
       ("type", some (Json.str ty.toWire)),
       ("description", desc.map Json.str),
       ("position", pos.map position3DToJson),
       ("color", col.map Json.str),
       ("size", sz.map Json.num),
       ("parentId", par.map Json.str),
       ("children",
         match ch with
         | none => none
         | some cs => some (Json.arr (nodeListToJson cs))),
       ("filePath", fp.map Json.str),
       ("lineStart", ls.map Json.num),
       ("lineEnd", le.map Json.num),
       ("technology", te.map Json.str),
       ("language", la.map Json.str),
       ("framework", fr.map Json.str),
       ("health", he.map (fun h => Json.str h.toWire)),
       ("metrics", me.map nodeMetricsToJson),
       ("region", re.map Json.str),
       ("instances", inst.map Json.num),
       ("metadata", md.map Json.obj)])
termination_by n => sizeOf n
decreasing_by
  simp
  omega

def nodeListToJson : List ArchitectureNode → List Json
  | [] => []
  | n :: ns => nodeToJson n :: nodeListToJson ns
termination_by ns => sizeOf ns
decreasing_by
  all_goals simp
  all_goals omega

end

def architectureSegs (a : Architecture) : List (String × Option Json) :=
  [("name", some (Json.str a.name)),
   ("version", some (Json.str a.version)),
   ("description", a.description.map Json.str),
   ("generatedAt", a.generatedAt.map Json.str),
   ("sourceRepository", a.sourceRepository.map Json.str),
   ("nodes", some (Json.arr (nodeListToJson a.nodes))),
   ("connections", some (Json.arr (a.connections.map connectionToJson))),
   ("layout", a.layout.map layoutToJson),
   ("defaultView", a.defaultView.map defaultViewToJson)]

def architectureToJson (a : Architecture) : Json :=
  Json.obj (segsToFields (architectureSegs a))

def analysisResultToJson (r : AnalysisResult) : Json :=
  Json.obj [("architecture", architectureToJson r.architecture),
            ("summary", Json.str r.summary),
            ("insights", Json.arr (r.insights.map Json.str)),
            ("warnings", Json.arr (r.warnings.map Json.str))]

/-! ### The structural invariants of §3 as executable predicates -/

/-- A present numeric must be strictly positive (`z.number().positive()`). -/
def posOptValid : Option ℚ → Bool
  | none => true
  | some q => decide (0 < q)

/-- A present numeric must be a strictly positive integer (`.int().positive()`). -/
def posIntOptValid : Option ℚ → Bool
  | none => true
  | some q => q.isInt && decide (0 < q)

mutual

def nodeValid : ArchitectureNode → Bool
  | .mk i name _ _ _ _ sz _ ch _ ls le _ _ _ _ _ _ inst _ =>
    decide (1 ≤ i.length) && decide (1 ≤ name.length) &&
    posOptValid sz && posIntOptValid ls && posIntOptValid le && posIntOptValid inst &&
    (match ch with
     | none => true
     | some cs => nodeListValid cs)
termination_by n => sizeOf n
decreasing_by
  simp
  omega

def nodeListValid : List ArchitectureNode → Bool
  | [] => true
  | n :: ns => nodeValid n && nodeListValid ns
termination_by ns => sizeOf ns
decreasing_by
  all_goals simp
  all_goals omega

end

def connectionValid (c : ArchitectureConnection) : Bool :=
  decide (1 ≤ c.id.length) && decide (1 ≤ c.sourceId.length) &&
  decide (1 ≤ c.targetId.length) && posOptValid c.thickness

def connectionListValid : List ArchitectureConnection → Bool
  | [] => true
  | c :: cs => connectionValid c && connectionListValid cs

def layoutOptValid : Option Layout → Bool
  | none => true
  | some l => posOptValid l.spacing

def architectureValid (a : Architecture) : Bool :=
  decide (1 ≤ a.name.length) && decide (1 ≤ a.version.length) &&
  decide (1 ≤ a.nodes.length) && nodeListValid a.nodes &&
  connectionListValid a.connections && layoutOptValid a.layout

def analysisResultValid (r : AnalysisResult) : Bool :=
  architectureValid r.architecture

/-! ### The graph query layer (`architectureStore.ts`) -/

/-- The detail-level → traversal-depth-ceiling table of `getVisibleNodes`. -/
def detailDepth : DetailLevel → Nat
  | .overview => 1
  | .service => 2
  | .module => 3
  | .code => 4

theorem sizeOf_nodeChildren {n : ArchitectureNode} {cs : List ArchitectureNode}
    (h : nodeChildren n = some cs) : sizeOf cs < sizeOf n := by
  cases n with
  | mk i name ty desc pos col sz par ch fp ls le te la fr he me re inst md =>
    simp [nodeChildren] at h
    subst h
    simp
    omega

/-- The recursive `findNode` closure inside `getNode`: first match in
depth-first, parent-before-children, sequence order. -/
def findNode (q : String) (ns : List ArchitectureNode) : Option ArchitectureNode :=
  match ns with
  | [] => none
  | n :: rest =>
    if nodeId n = q then some n
    else
      match h : nodeChildren n with
      | some cs =>
        match findNode q cs with
        | some found => some found
        | none => findNode q rest
      | none => findNode q rest
termination_by sizeOf ns
decreasing_by
  all_goals simp
  all_goals try omega
  all_goals (have h2 := sizeOf_nodeChildren h; omega)

/-- The `getNode` helper on a loaded (non-null) architecture. -/
def getNode (arch : Architecture) (q : String) : Option ArchitectureNode :=
  findNode q arch.nodes

/-- The `getNodeConnections` helper: edges whose source or target is the queried id. -/
def getNodeConnections (arch : Architecture) (q : String) : List ArchitectureConnection :=
  arch.connections.filter (fun c => c.sourceId == q || c.targetId == q)

/-- The `collectNodes` closure of `getVisibleNodes`: include every visited
node; descend iff there are children and (`depth < maxDepth` or expanded). -/
def collectNodes (expanded : List String) (maxDepth : Nat)
    (ns : List ArchitectureNode) (depth : Nat) : List ArchitectureNode :=
  match ns with
  | [] => []
  | n :: rest =>
    n ::
      ((match h : nodeChildren n with
        | some cs =>
          if depth < maxDepth || expanded.contains (nodeId n) then
            collectNodes expanded maxDepth cs (depth + 1)
          else []
        | none => []) ++
       collectNodes expanded maxDepth rest depth)
termination_by sizeOf ns
decreasing_by
  all_goals simp
  all_goals try omega
  all_goals (have h2 := sizeOf_nodeChildren h; omega)

/-- The `getVisibleNodes` helper on a loaded architecture, with the interactive state
(`detailLevel`, `expandedNodeIds`) passed explicitly. -/
def getVisibleNodes (arch : Architecture) (level : DetailLevel)
    (expanded : List String) : List ArchitectureNode :=
  collectNodes expanded (detailDepth level) arch.nodes 1

/-! ### Specification-side descriptions of the query layer (§4.2 of the spec)

These are written from the spec's words, to be compared with the
embeddings of the source functions above. -/

/-- A node's owned child sequence; absent children mean no children. -/
def childList (n : ArchitectureNode) : List ArchitectureNode :=
  (nodeChildren n).getD []

theorem sizeOf_childList (n : ArchitectureNode) : sizeOf (childList n) < sizeOf n := by
  cases n with
  | mk i name ty desc pos col sz par ch fp ls le te la fr he me re inst md =>
    cases ch with
    | none => simp [childList, nodeChildren]; omega
    | some cs => simp [childList, nodeChildren]; omega

/-- Spec §4.2 `findNode`: document order of the forest — every parent before
its children, children in sequence order, trees in sequence order. -/
def preorderForest (ns : List ArchitectureNode) : List ArchitectureNode :=
  match ns with
  | [] => []
  | n :: rest => n :: (preorderForest (childList n) ++ preorderForest rest)
termination_by sizeOf ns
decreasing_by
  all_goals simp
  all_goals try omega
  all_goals (have hcl := sizeOf_childList n; omega)

/-- Spec §4.2 `visibleNodes`: depth-first; a node is always included; its
children are traversed only if the current depth is below the ceiling or
the node's id is in `expandedIds`; parent immediately followed by its
included children. -/
def visibleNodesSpec (ceiling : Nat) (expandedIds : List String)
    (forest : List ArchitectureNode) (depth : Nat) : List ArchitectureNode :=
  match forest with
  | [] => []
  | n :: rest =>
    n ::
      ((if depth < ceiling ∨ nodeId n ∈ expandedIds then
          visibleNodesSpec ceiling expandedIds (childList n) (depth + 1)
        else []) ++
       visibleNodesSpec ceiling expandedIds rest depth)
termination_by sizeOf forest
decreasing_by
  all_goals simp
  all_goals try omega
  all_goals (have hcl := sizeOf_childList n; omega)

end Soar

namespace Soar

/-! ### Claims C4, C5, C6: the query layer matches its specification -/

/-- Lemma: `findNode` is first-match search in preorder (document) order. -/
theorem findNode_eq_find? (q : String) (ns : List ArchitectureNode) :
    findNode q ns = (preorderForest ns).find? (fun n => nodeId n == q) := by
  match ns with
  | [] => rw [findNode, preorderForest]; rfl
  | n :: rest =>
    rw [findNode, preorderForest]
    by_cases hq : nodeId n = q
    · rw [if_pos hq]
      rw [List.find?_cons_of_pos]
      simp [hq]
    · rw [if_neg hq]
      rw [List.find?_cons_of_neg]
      · rw [List.find?_append]
        split
        next cs hch =>
          have ih1 := findNode_eq_find? q cs
          have ih2 := findNode_eq_find? q rest
          have hcl : childList n = cs := by simp [childList, hch]
          rw [hcl, ← ih1, ← ih2]
          rcases hfc : findNode q cs with _ | f <;> simp [hfc, Option.or]
        next hch =>
          have ih2 := findNode_eq_find? q rest
          have hcl : childList n = [] := by simp [childList, hch]
          rw [hcl, ← ih2, preorderForest]
          simp [Option.or]
      · simp [hq]
termination_by sizeOf ns
decreasing_by
  all_goals simp
  all_goals try omega
  all_goals (rename_i heq; have h2 := sizeOf_nodeChildren heq; omega)

/-- Lemma: `collectNodes` computes the spec-side progressive-disclosure traversal. -/
theorem collectNodes_eq_spec (exp : List String) (m : Nat)
    (ns : List ArchitectureNode) (d : Nat) :
    collectNodes exp m ns d = visibleNodesSpec m exp ns d := by
  match ns with
  | [] => rw [collectNodes, visibleNodesSpec]
  | n :: rest =>
    have ih2 := collectNodes_eq_spec exp m rest d
    rw [collectNodes, visibleNodesSpec]
    refine congrArg _ (congrArg₂ _ ?_ ih2)
    have hcond : ((decide (d < m) || exp.contains (nodeId n)) = true) ↔
        (d < m ∨ nodeId n ∈ exp) := by
      simp [List.contains]
    split
    next cs hch =>
      have ih1 := collectNodes_eq_spec exp m cs (d + 1)
      have hcl : childList n = cs := by simp [childList, hch]
      rw [hcl]
      by_cases hc : d < m ∨ nodeId n ∈ exp
      · rw [if_pos (hcond.mpr hc), if_pos hc, ih1]
      · rw [if_neg (fun hb => hc (hcond.mp hb)), if_neg hc]
    next hch =>
      have hcl : childList n = [] := by simp [childList, hch]
      rw [hcl, visibleNodesSpec]
      simp
termination_by sizeOf ns
decreasing_by
  all_goals simp
  all_goals try omega
  all_goals (rename_i heq; have h2 := sizeOf_nodeChildren heq; omega)

/-- C4: for every graph, detail level and expanded set, `getVisibleNodes` is
the spec's depth-first traversal: start at depth 1, include every visited
node, traverse a node's children iff the current depth is strictly below
the ceiling or the node's id is expanded, parent immediately followed by
its included children; the ceiling is overview 1, service 2, module 3,
code 4. -/
theorem getVisibleNodes_matches_spec (arch : Architecture) (level : DetailLevel)
    (exp : List String) :
    getVisibleNodes arch level exp = visibleNodesSpec (detailDepth level) exp arch.nodes 1 ∧
    detailDepth DetailLevel.overview = 1 ∧ detailDepth DetailLevel.service = 2 ∧
    detailDepth DetailLevel.module = 3 ∧ detailDepth DetailLevel.code = 4 :=
  ⟨collectNodes_eq_spec exp (detailDepth level) arch.nodes 1, rfl, rfl, rfl, rfl⟩

/-- C5: `getNode` is depth-first first-match search, parent before children,
children in sequence order; a missing id yields the not-found variant
(`none`), never an exception (the function is total by construction). -/
theorem getNode_is_preorder_find (arch : Architecture) (q : String) :
    getNode arch q = (preorderForest arch.nodes).find? (fun n => nodeId n == q) ∧
    (getNode arch q = none ↔ ∀ n ∈ preorderForest arch.nodes, nodeId n ≠ q) := by
  have h := findNode_eq_find? q arch.nodes
  refine ⟨h, ?_⟩
  rw [getNode, h, List.find?_eq_none]
  simp

/-- C6: `getNodeConnections` returns exactly the edges touching the queried
id, in original edge-list order (a sublist of the edge list), with no
filtering by node existence: the result does not depend on the node forest,
and an id touching no edge yields the empty list. -/
theorem getNodeConnections_spec (nm ver : String) (d g s : Option String)
    (ns : List ArchitectureNode) (conns : List ArchitectureConnection)
    (lay : Option Layout) (dv : Option DefaultView) (q : String) :
    getNodeConnections (Architecture.mk nm ver d g s ns conns lay dv) q =
      conns.filter (fun c => c.sourceId == q || c.targetId == q) ∧
    (getNodeConnections (Architecture.mk nm ver d g s ns conns lay dv) q).Sublist conns ∧
    (∀ c, c ∈ getNodeConnections (Architecture.mk nm ver d g s ns conns lay dv) q ↔
      c ∈ conns ∧ (c.sourceId = q ∨ c.targetId = q)) := by
  refine ⟨rfl, List.filter_sublist _, ?_⟩
  intro c
  simp [getNodeConnections, List.mem_filter]

end Soar

namespace Soar

/-! ### Combinator lemmas for the parse results -/

@[simp] theorem errsOf_ok {α : Type} (a : α) : errsOf (Except.ok a : P α) = [] := rfl

@[simp] theorem errsOf_error {α : Type} (e : List Issue) :
    errsOf (Except.error e : P α) = e := rfl

theorem errsOf_pseq {α β : Type} (f : P (α → β)) (a : P α) :
    errsOf (pseq f a) = errsOf f ++ errsOf a := by
  cases f <;> cases a <;> simp [pseq]

/-- The issue-path prefixer applied by `atKey k`. -/
def keyPrefix (k : String) (i : Issue) : Issue :=
  ⟨PathItem.key k :: i.path, i.message, i.code⟩

/-- The issue-path prefixer applied by `atIdx n`. -/
def idxPrefix (n : Nat) (i : Issue) : Issue :=
  ⟨PathItem.idx n :: i.path, i.message, i.code⟩

theorem errsOf_atKey {α : Type} (k : String) (p : P α) :
    errsOf (atKey k p) = (errsOf p).map (keyPrefix k) := by
  cases p <;> simp [atKey, keyPrefix]

theorem errsOf_atIdx {α : Type} (n : Nat) (p : P α) :
    errsOf (atIdx n p) = (errsOf p).map (idxPrefix n) := by
  cases p <;> simp [atIdx, idxPrefix]

theorem errsOf_map_some {α : Type} (p : P α) :
    errsOf (p.map (some : α → Option α)) = errsOf p := by
  cases p <;> simp [Except.map]

/-- A parse result never reports an empty issue list. -/
def GoodP {α : Type} (p : P α) : Prop := ∀ e, p = .error e → e ≠ []

theorem goodP_ok {α : Type} (a : α) : GoodP (Except.ok a : P α) := by
  intro e he
  exact absurd he (by simp)

theorem goodP_singleton {α : Type} (i : Issue) : GoodP (Except.error [i] : P α) := by
  intro e he hnil
  injection he with h2
  exact (by simp [hnil] at h2 : False)

theorem goodP_pseq {α β : Type} {f : P (α → β)} {a : P α}
    (hf : GoodP f) (ha : GoodP a) : GoodP (pseq f a) := by
  intro e he
  cases f with
  | ok g =>
    cases a with
    | ok x => simp [pseq] at he
    | error ea => simp [pseq] at he; subst he; exact ha _ rfl
  | error ef =>
    cases a with
    | ok x => simp [pseq] at he; subst he; exact hf _ rfl
    | error ea =>
      simp [pseq] at he
      subst he
      have := hf ef rfl
      simp [this]

theorem goodP_atKey {α : Type} {p : P α} (k : String) (h : GoodP p) : GoodP (atKey k p) := by
  intro e he
  cases p with
  | ok a => simp [atKey] at he
  | error ep =>
    simp [atKey] at he
    subst he
    have := h ep rfl
    simp [this]

theorem goodP_atIdx {α : Type} {p : P α} (n : Nat) (h : GoodP p) : GoodP (atIdx n p) := by
  intro e he
  cases p with
  | ok a => simp [atIdx] at he
  | error ep =>
    simp [atIdx] at he
    subst he
    have := h ep rfl
    simp [this]

theorem goodP_map_some {α : Type} {p : P α} (h : GoodP p) :
    GoodP (p.map (some : α → Option α)) := by
  intro e he
  cases p with
  | ok a => simp [Except.map] at he
  | error ep => simp [Except.map] at he; subst he; exact h _ rfl

theorem goodP_reqField {α : Type} {p : Json → P α} (fs : List (String × Json)) (k : String)
    (h : ∀ v, GoodP (p v)) : GoodP (reqField fs k p) := by
  rw [reqField]
  cases lookupField fs k with
  | none => exact goodP_singleton _
  | some v => exact goodP_atKey k (h v)

theorem goodP_optField {α : Type} {p : Json → P α} (fs : List (String × Json)) (k : String)
    (h : ∀ v, GoodP (p v)) : GoodP (optField fs k p) := by
  rw [optField]
  cases lookupField fs k with
  | none => exact goodP_ok _
  | some v => exact goodP_atKey k (goodP_map_some (h v))

theorem goodP_parseString (j : Json) : GoodP (parseString j) := by
  cases j <;> first | exact goodP_ok _ | exact goodP_singleton _

theorem goodP_parseNonEmptyString (msg : String) (j : Json) :
    GoodP (parseNonEmptyString msg j) := by
  cases j <;> simp only [parseNonEmptyString] <;>
    first
      | exact goodP_singleton _
      | (split
         · exact goodP_singleton _
         · exact goodP_ok _)

theorem goodP_parseNumber (j : Json) : GoodP (parseNumber j) := by
  cases j <;> first | exact goodP_ok _ | exact goodP_singleton _

theorem goodP_parsePositiveNumber (j : Json) : GoodP (parsePositiveNumber j) := by
  cases j <;> simp only [parsePositiveNumber] <;>
    first
      | exact goodP_singleton _
      | (split
         · exact goodP_ok _
         · exact goodP_singleton _)

theorem goodP_parsePositiveInt (j : Json) : GoodP (parsePositiveInt j) := by
  cases j <;> simp only [parsePositiveInt] <;> try exact goodP_singleton _
  rename_i q
  split
  · exact goodP_ok _
  · rename_i es hes
    intro e he hnil
    injection he with h2
    exact hes (h2.trans hnil)

theorem goodP_parseBoolean (j : Json) : GoodP (parseBoolean j) := by
  cases j <;> first | exact goodP_ok _ | exact goodP_singleton _

theorem goodP_parseRecordAny (j : Json) : GoodP (parseRecordAny j) := by
  cases j <;> first | exact goodP_ok _ | exact goodP_singleton _

theorem goodP_parseEnum {α : Type} (ofString : String → Option α) (j : Json) :
    GoodP (parseEnum ofString j) := by
  cases j <;> simp only [parseEnum] <;> try exact goodP_singleton _
  rename_i s
  cases ofString s with
  | some a => exact goodP_ok _
  | none => exact goodP_singleton _

theorem goodP_parsePosition3D (j : Json) : GoodP (parsePosition3D j) := by
  cases j <;> simp only [parsePosition3D] <;> try exact goodP_singleton _
  exact goodP_pseq (goodP_pseq (goodP_pseq (goodP_ok _)
    (goodP_reqField _ _ goodP_parseNumber))
    (goodP_reqField _ _ goodP_parseNumber))
    (goodP_reqField _ _ goodP_parseNumber)

theorem goodP_parseNodeMetrics (j : Json) : GoodP (parseNodeMetrics j) := by
  cases j <;> simp only [parseNodeMetrics] <;> try exact goodP_singleton _
  exact goodP_pseq (goodP_pseq (goodP_pseq (goodP_pseq (goodP_pseq (goodP_pseq (goodP_ok _)
    (goodP_optField _ _ goodP_parseNumber))
    (goodP_optField _ _ goodP_parseNumber))
    (goodP_optField _ _ goodP_parseNumber))
    (goodP_optField _ _ goodP_parseNumber))
    (goodP_optField _ _ goodP_parseNumber))
    (goodP_optField _ _ goodP_parseNumber)

theorem goodP_parseConnection (j : Json) : GoodP (parseConnection j) := by
  cases j <;> simp only [parseConnection] <;> try exact goodP_singleton _
  exact goodP_pseq (goodP_pseq (goodP_pseq (goodP_pseq (goodP_pseq (goodP_pseq (goodP_pseq
    (goodP_pseq (goodP_pseq (goodP_pseq (goodP_pseq (goodP_pseq (goodP_pseq (goodP_pseq
    (goodP_ok _)
    (goodP_reqField _ _ (goodP_parseNonEmptyString _)))
    (goodP_reqField _ _ (goodP_parseNonEmptyString _)))
    (goodP_reqField _ _ (goodP_parseNonEmptyString _)))
    (goodP_reqField _ _ (goodP_parseEnum _)))
    (goodP_optField _ _ goodP_parseString))
    (goodP_optField _ _ goodP_parseString))
    (goodP_optField _ _ goodP_parsePositiveNumber))
    (goodP_optField _ _ goodP_parseBoolean))
    (goodP_optField _ _ goodP_parseBoolean))
    (goodP_optField _ _ (goodP_parseEnum _)))
    (goodP_optField _ _ goodP_parseNumber))
    (goodP_optField _ _ goodP_parseNumber))
    (goodP_optField _ _ goodP_parseNumber))
    (goodP_optField _ _ goodP_parseRecordAny)

theorem goodP_parseStringList (i : Nat) (xs : List Json) : GoodP (parseStringList i xs) := by
  induction xs generalizing i with
  | nil => exact goodP_ok _
  | cons x rest ih =>
    rw [parseStringList]
    exact goodP_pseq (goodP_pseq (goodP_ok _) (goodP_atIdx _ (goodP_parseString x))) (ih _)

theorem goodP_parseStringArray (j : Json) : GoodP (parseStringArray j) := by
  cases j <;> simp only [parseStringArray] <;>
    first | exact goodP_singleton _ | exact goodP_parseStringList 0 _

theorem goodP_parseLayersList (i : Nat) (xs : List Json) : GoodP (parseLayersList i xs) := by
  induction xs generalizing i with
  | nil => exact goodP_ok _
  | cons x rest ih =>
    rw [parseLayersList]
    exact goodP_pseq (goodP_pseq (goodP_ok _) (goodP_atIdx _ (goodP_parseStringArray x))) (ih _)

theorem goodP_parseLayersArray (j : Json) : GoodP (parseLayersArray j) := by
  cases j <;> simp only [parseLayersArray] <;>
    first | exact goodP_singleton _ | exact goodP_parseLayersList 0 _

theorem goodP_parseLayout (j : Json) : GoodP (parseLayout j) := by
  cases j <;> simp only [parseLayout] <;> try exact goodP_singleton _
  exact goodP_pseq (goodP_pseq (goodP_pseq (goodP_ok _)
    (goodP_reqField _ _ (goodP_parseEnum _)))
    (goodP_optField _ _ goodP_parsePositiveNumber))
    (goodP_optField _ _ goodP_parseLayersArray)

theorem goodP_parseDefaultView (j : Json) : GoodP (parseDefaultView j) := by
  cases j <;> simp only [parseDefaultView] <;> try exact goodP_singleton _
  exact goodP_pseq (goodP_pseq (goodP_pseq (goodP_ok _)
    (goodP_reqField _ _ goodP_parsePosition3D))
    (goodP_reqField _ _ goodP_parsePosition3D))
    (goodP_reqField _ _ (goodP_parseEnum _))

end Soar

namespace Soar

mutual

theorem goodP_parseNode (j : Json) : GoodP (parseNode j) := by
  match j with
  | Json.null | Json.bool _ | Json.num _ | Json.str _ | Json.arr _ =>
    simp only [parseNode.eq_def]
    exact goodP_singleton _
  | Json.obj fs =>
    simp only [parseNode.eq_def]
    refine goodP_pseq (goodP_pseq (goodP_pseq (goodP_pseq (goodP_pseq (goodP_pseq (goodP_pseq
      (goodP_pseq (goodP_pseq (goodP_pseq (goodP_pseq (goodP_pseq (goodP_pseq (goodP_pseq
      (goodP_pseq (goodP_pseq (goodP_pseq (goodP_pseq (goodP_pseq (goodP_pseq
      (goodP_ok _)
      (goodP_reqField _ _ (goodP_parseNonEmptyString _)))
      (goodP_reqField _ _ (goodP_parseNonEmptyString _)))
      (goodP_reqField _ _ (goodP_parseEnum _)))
      (goodP_optField _ _ goodP_parseString))
      (goodP_optField _ _ goodP_parsePosition3D))
      (goodP_optField _ _ goodP_parseString))
      (goodP_optField _ _ goodP_parsePositiveNumber))
      (goodP_optField _ _ goodP_parseString))
      (goodP_parseChildrenField fs))
      (goodP_optField _ _ goodP_parseString))
      (goodP_optField _ _ goodP_parsePositiveInt))
      (goodP_optField _ _ goodP_parsePositiveInt))
      (goodP_optField _ _ goodP_parseString))
      (goodP_optField _ _ goodP_parseString))
      (goodP_optField _ _ goodP_parseString))
      (goodP_optField _ _ (goodP_parseEnum _)))
      (goodP_optField _ _ goodP_parseNodeMetrics))
      (goodP_optField _ _ goodP_parseString))
      (goodP_optField _ _ goodP_parsePositiveInt))
      (goodP_optField _ _ goodP_parseRecordAny)
termination_by sizeOf j
decreasing_by
  all_goals simp
  all_goals try omega

theorem goodP_parseChildrenField (fs : List (String × Json)) :
    GoodP (parseChildrenField fs) := by
  rw [parseChildrenField.eq_def]
  split
  next => exact goodP_ok _
  next xs hch => exact goodP_atKey _ (goodP_map_some (goodP_parseNodeList 0 xs))
  next v hch hne => exact goodP_atKey _ (goodP_singleton _)
termination_by sizeOf fs
decreasing_by
  rename_i heq
  have h1 := sizeOf_lookupField_arr heq
  simp
  omega

theorem goodP_parseNodeList (i : Nat) (xs : List Json) : GoodP (parseNodeList i xs) := by
  match xs with
  | [] => rw [parseNodeList]; exact goodP_ok _
  | x :: rest =>
    rw [parseNodeList]
    exact goodP_pseq (goodP_pseq (goodP_ok _) (goodP_atIdx _ (goodP_parseNode x)))
      (goodP_parseNodeList (i+1) rest)
termination_by sizeOf xs
decreasing_by
  all_goals simp
  all_goals omega

end

theorem goodP_nodesMinCheck (xs : List Json) : GoodP (nodesMinCheck xs) := by
  rw [nodesMinCheck]
  split
  · exact goodP_singleton _
  · exact goodP_ok _

theorem goodP_parseNodesArray (j : Json) : GoodP (parseNodesArray j) := by
  cases j <;> simp only [parseNodesArray] <;> try exact goodP_singleton _
  exact goodP_pseq (goodP_pseq (goodP_ok _) (goodP_nodesMinCheck _)) (goodP_parseNodeList 0 _)

theorem goodP_parseConnectionList (i : Nat) (xs : List Json) :
    GoodP (parseConnectionList i xs) := by
  induction xs generalizing i with
  | nil => exact goodP_ok _
  | cons x rest ih =>
    rw [parseConnectionList]
    exact goodP_pseq (goodP_pseq (goodP_ok _) (goodP_atIdx _ (goodP_parseConnection x))) (ih _)

theorem goodP_parseConnectionsArray (j : Json) : GoodP (parseConnectionsArray j) := by
  cases j <;> simp only [parseConnectionsArray] <;>
    first | exact goodP_singleton _ | exact goodP_parseConnectionList 0 _

theorem goodP_parseArchitecture (j : Json) : GoodP (parseArchitecture j) := by
  cases j <;> simp only [parseArchitecture] <;> try exact goodP_singleton _
  exact goodP_pseq (goodP_pseq (goodP_pseq (goodP_pseq (goodP_pseq (goodP_pseq (goodP_pseq
    (goodP_pseq (goodP_pseq
    (goodP_ok _)
    (goodP_reqField _ _ (goodP_parseNonEmptyString _)))
    (goodP_reqField _ _ (goodP_parseNonEmptyString _)))
    (goodP_optField _ _ goodP_parseString))
    (goodP_optField _ _ goodP_parseString))
    (goodP_optField _ _ goodP_parseString))
    (goodP_reqField _ _ goodP_parseNodesArray))
    (goodP_reqField _ _ goodP_parseConnectionsArray))
    (goodP_optField _ _ goodP_parseLayout))
    (goodP_optField _ _ goodP_parseDefaultView)

theorem goodP_parseAnalysisResult (j : Json) : GoodP (parseAnalysisResult j) := by
  cases j <;> simp only [parseAnalysisResult] <;> try exact goodP_singleton _
  exact goodP_pseq (goodP_pseq (goodP_pseq (goodP_pseq
    (goodP_ok _)
    (goodP_reqField _ _ goodP_parseArchitecture))
    (goodP_reqField _ _ goodP_parseString))
    (goodP_reqField _ _ goodP_parseStringArray))
    (goodP_reqField _ _ goodP_parseStringArray)

/-! ### Claim C1: validation is total and yields a discriminated result -/

/-- C1: for every input value, `validateArchitecture` returns (it is a total
function into the discriminated `ValidationResult`): either success with a
typed envelope, or failure with a non-empty list of violations, each a
`ValidationError` carrying a dotted path, a message, and a code. -/
theorem validateArchitecture_total (j : Json) :
    (∃ d, validateArchitecture j = ValidationResult.ok d) ∨
    (∃ errs, validateArchitecture j = ValidationResult.err errs ∧ errs ≠ [] ∧
      errs = formatZodErrors (errsOf (parseAnalysisResult j))) := by
  rw [validateArchitecture]
  cases hp : parseAnalysisResult j with
  | ok d => exact Or.inl ⟨d, rfl⟩
  | error es =>
    refine Or.inr ⟨formatZodErrors es, rfl, ?_, by simp⟩
    have hne := goodP_parseAnalysisResult j es hp
    simp [formatZodErrors]
    exact hne

end Soar

namespace Soar

/-! ### Round-trip lemmas: parsing a serialized valid value succeeds -/

@[simp] theorem pseq_ok_ok {α β : Type} (f : α → β) (a : α) :
    pseq (Except.ok f) (Except.ok a) = Except.ok (f a) := rfl

theorem atKey_ok {α : Type} (k : String) {p : P α} {a : α} (h : p = .ok a) :
    atKey k p = .ok a := by rw [h]; rfl

theorem reqField_of_lookup_error {α : Type} {fs : List (String × Json)} {k : String}
    {v : Json} {p : Json → P α} {e : List Issue}
    (h : lookupField fs k = some v) (hp : p v = .error e) :
    reqField fs k p = .error (e.map (keyPrefix k)) := by
  rw [reqField, h]
  show atKey k (p v) = Except.error (e.map (keyPrefix k))
  rw [hp]
  rfl

theorem reqField_of_lookup {α : Type} {fs : List (String × Json)} {k : String} {v : Json}
    {p : Json → P α} {a : α} (h : lookupField fs k = some v) (hp : p v = .ok a) :
    reqField fs k p = .ok a := by
  rw [reqField, h]
  exact atKey_ok k hp

theorem optField_of_lookup_none {α : Type} {fs : List (String × Json)} {k : String}
    {p : Json → P α} (h : lookupField fs k = none) : optField fs k p = .ok none := by
  rw [optField, h]

theorem optField_of_lookup_some {α : Type} {fs : List (String × Json)} {k : String} {v : Json}
    {p : Json → P α} {a : α} (h : lookupField fs k = some v) (hp : p v = .ok a) :
    optField fs k p = .ok (some a) := by
  rw [optField, h]
  show atKey k (Except.map some (p v)) = Except.ok (some a)
  rw [hp]
  rfl

/-- Round-trip an optional field whose wire form is `enc` of the value. -/
theorem optField_roundtrip {α : Type} {fs : List (String × Json)} {k : String}
    {p : Json → P α} {g : α → Json} {o : Option α}
    (h : lookupField fs k = o.map g) (hp : ∀ a, o = some a → p (g a) = .ok a) :
    optField fs k p = .ok o := by
  cases o with
  | none => exact optField_of_lookup_none (by simpa using h)
  | some a => exact optField_of_lookup_some (by simpa using h) (hp a rfl)

theorem parseString_ok (s : String) : parseString (Json.str s) = .ok s := rfl

theorem parseNonEmptyString_ok (msg : String) {s : String} (h : 1 ≤ s.length) :
    parseNonEmptyString msg (Json.str s) = .ok s := by
  rw [parseNonEmptyString]
  simp
  omega

theorem parseNumber_ok (q : ℚ) : parseNumber (Json.num q) = .ok q := rfl

theorem parsePositiveNumber_ok {q : ℚ} (h : 0 < q) :
    parsePositiveNumber (Json.num q) = .ok q := by
  rw [parsePositiveNumber]
  simp [h]

theorem parsePositiveInt_ok {q : ℚ} (hi : q.isInt = true) (h : 0 < q) :
    parsePositiveInt (Json.num q) = .ok q := by
  rw [parsePositiveInt]
  simp [hi, h]

theorem parseBoolean_ok (b : Bool) : parseBoolean (Json.bool b) = .ok b := rfl

theorem parseRecordAny_ok (fs : List (String × Json)) :
    parseRecordAny (Json.obj fs) = .ok fs := rfl

theorem parseNodeType_ok (t : NodeType) :
    parseEnum nodeTypeOfString (Json.str t.toWire) = .ok t := by
  cases t <;> rfl

theorem parseConnectionType_ok (t : ConnectionType) :
    parseEnum connectionTypeOfString (Json.str t.toWire) = .ok t := by
  cases t <;> rfl

theorem parseHealthStatus_ok (h : HealthStatus) :
    parseEnum healthStatusOfString (Json.str h.toWire) = .ok h := by
  cases h <;> rfl

theorem parseDataFlow_ok (d : DataFlow) :
    parseEnum dataFlowOfString (Json.str d.toWire) = .ok d := by
  cases d <;> rfl

theorem parseDetailLevel_ok (d : DetailLevel) :
    parseEnum detailLevelOfString (Json.str d.toWire) = .ok d := by
  cases d <;> rfl

theorem parseLayoutType_ok (t : LayoutType) :
    parseEnum layoutTypeOfString (Json.str t.toWire) = .ok t := by
  cases t <;> rfl

/-- A valid present positive numeric parses back. -/
theorem parsePositiveNumber_of_valid {o : Option ℚ} (h : posOptValid o = true) :
    ∀ q, o = some q → parsePositiveNumber (Json.num q) = .ok q := by
  intro q hq
  subst hq
  rw [posOptValid] at h
  simp at h
  exact parsePositiveNumber_ok h

/-- A valid present positive-integer numeric parses back. -/
theorem parsePositiveInt_of_valid {o : Option ℚ} (h : posIntOptValid o = true) :
    ∀ q, o = some q → parsePositiveInt (Json.num q) = .ok q := by
  intro q hq
  subst hq
  rw [posIntOptValid] at h
  simp [Bool.and_eq_true] at h
  exact parsePositiveInt_ok h.1 h.2

theorem parsePosition3D_roundtrip (p : Position3D) :
    parsePosition3D (position3DToJson p) = .ok p := by
  obtain ⟨x, y, z⟩ := p
  rw [position3DToJson, parsePosition3D]
  rw [reqField_of_lookup (v := Json.num x) (by simp [lookupField]) (parseNumber_ok x)]
  rw [reqField_of_lookup (v := Json.num y) (by simp [lookupField]) (parseNumber_ok y)]
  rw [reqField_of_lookup (v := Json.num z) (by simp [lookupField]) (parseNumber_ok z)]
  rfl

theorem parseNodeMetrics_roundtrip (m : NodeMetrics) :
    parseNodeMetrics (nodeMetricsToJson m) = .ok m := by
  obtain ⟨a, b, c, d, e, f⟩ := m
  rw [nodeMetricsToJson, parseNodeMetrics]
  rw [optField_roundtrip (g := Json.num) (o := a)
    (by rw [lookupField_segsToFields]; simp [nodeMetricsSegs, segLookup])
    (fun q _ => parseNumber_ok q)]
  rw [optField_roundtrip (g := Json.num) (o := b)
    (by rw [lookupField_segsToFields]; simp [nodeMetricsSegs, segLookup])
    (fun q _ => parseNumber_ok q)]
  rw [optField_roundtrip (g := Json.num) (o := c)
    (by rw [lookupField_segsToFields]; simp [nodeMetricsSegs, segLookup])
    (fun q _ => parseNumber_ok q)]
  rw [optField_roundtrip (g := Json.num) (o := d)
    (by rw [lookupField_segsToFields]; simp [nodeMetricsSegs, segLookup])
    (fun q _ => parseNumber_ok q)]
  rw [optField_roundtrip (g := Json.num) (o := e)
    (by rw [lookupField_segsToFields]; simp [nodeMetricsSegs, segLookup])
    (fun q _ => parseNumber_ok q)]
  rw [optField_roundtrip (g := Json.num) (o := f)
    (by rw [lookupField_segsToFields]; simp [nodeMetricsSegs, segLookup])
    (fun q _ => parseNumber_ok q)]
  rfl

end Soar

namespace Soar

theorem parseStringList_roundtrip (ss : List String) :
    ∀ i, parseStringList i (ss.map Json.str) = .ok ss := by
  induction ss with
  | nil => intro i; rfl
  | cons s rest ih =>
    intro i
    rw [List.map_cons, parseStringList, ih (i+1)]
    rfl

theorem parseStringArray_roundtrip (ss : List String) :
    parseStringArray (Json.arr (ss.map Json.str)) = .ok ss := by
  rw [parseStringArray]
  exact parseStringList_roundtrip ss 0

theorem parseLayersList_roundtrip (ls : List (List String)) :
    ∀ i, parseLayersList i (ls.map (fun g => Json.arr (g.map Json.str))) = .ok ls := by
  induction ls with
  | nil => intro i; rfl
  | cons g rest ih =>
    intro i
    rw [List.map_cons, parseLayersList, ih (i+1)]
    have hg : atIdx i (parseStringArray (Json.arr (g.map Json.str))) = .ok g :=
      by rw [parseStringArray_roundtrip]; rfl
    rw [hg]
    rfl

theorem parseLayersArray_roundtrip (ls : List (List String)) :
    parseLayersArray (Json.arr (ls.map (fun g => Json.arr (g.map Json.str)))) = .ok ls := by
  rw [parseLayersArray]
  exact parseLayersList_roundtrip ls 0

theorem parseLayout_roundtrip (l : Layout) (h : posOptValid l.spacing = true) :
    parseLayout (layoutToJson l) = .ok l := by
  obtain ⟨ty, sp, ly⟩ := l
  rw [layoutToJson, parseLayout]
  rw [reqField_of_lookup (v := Json.str ty.toWire)
    (by rw [lookupField_segsToFields]; simp [layoutSegs, segLookup])
    (parseLayoutType_ok ty)]
  rw [optField_roundtrip (g := Json.num) (o := sp)
    (by rw [lookupField_segsToFields]; simp [layoutSegs, segLookup])
    (parsePositiveNumber_of_valid h)]
  rw [optField_roundtrip (g := fun g => Json.arr (g.map (fun w => Json.arr (w.map Json.str))))
    (o := ly)
    (by rw [lookupField_segsToFields]; simp [layoutSegs, segLookup])
    (fun g _ => parseLayersArray_roundtrip g)]
  rfl

theorem parseDefaultView_roundtrip (v : DefaultView) :
    parseDefaultView (defaultViewToJson v) = .ok v := by
  obtain ⟨p, t, d⟩ := v
  rw [defaultViewToJson, parseDefaultView]
  rw [reqField_of_lookup (v := position3DToJson p) (by simp [lookupField])
    (parsePosition3D_roundtrip p)]
  rw [reqField_of_lookup (v := position3DToJson t) (by simp [lookupField])
    (parsePosition3D_roundtrip t)]
  rw [reqField_of_lookup (v := Json.str d.toWire) (by simp [lookupField])
    (parseDetailLevel_ok d)]
  rfl

theorem parseConnection_roundtrip (c : ArchitectureConnection)
    (h : connectionValid c = true) :
    parseConnection (connectionToJson c) = .ok c := by
  rw [connectionValid] at h
  simp only [Bool.and_eq_true, decide_eq_true_eq] at h
  obtain ⟨⟨⟨hid, hsrc⟩, htgt⟩, hth⟩ := h
  obtain ⟨id, sourceId, targetId, ty, label, color, thickness, animated, bidir, flow,
    rps, lat, er, md⟩ := c
  simp only at hid hsrc htgt hth
  rw [connectionToJson, parseConnection]
  rw [reqField_of_lookup (v := Json.str id)
    (by rw [lookupField_segsToFields]; simp [connectionSegs, segLookup])
    (parseNonEmptyString_ok _ hid)]
  rw [reqField_of_lookup (v := Json.str sourceId)
    (by rw [lookupField_segsToFields]; simp [connectionSegs, segLookup])
    (parseNonEmptyString_ok _ hsrc)]
  rw [reqField_of_lookup (v := Json.str targetId)
    (by rw [lookupField_segsToFields]; simp [connectionSegs, segLookup])
    (parseNonEmptyString_ok _ htgt)]
  rw [reqField_of_lookup (v := Json.str ty.toWire)
    (by rw [lookupField_segsToFields]; simp [connectionSegs, segLookup])
    (parseConnectionType_ok ty)]
  rw [optField_roundtrip (g := Json.str) (o := label)
    (by rw [lookupField_segsToFields]; simp [connectionSegs, segLookup])
    (fun s _ => parseString_ok s)]
  rw [optField_roundtrip (g := Json.str) (o := color)
    (by rw [lookupField_segsToFields]; simp [connectionSegs, segLookup])
    (fun s _ => parseString_ok s)]
  rw [optField_roundtrip (g := Json.num) (o := thickness)
    (by rw [lookupField_segsToFields]; simp [connectionSegs, segLookup])
    (parsePositiveNumber_of_valid hth)]
  rw [optField_roundtrip (g := Json.bool) (o := animated)
    (by rw [lookupField_segsToFields]; simp [connectionSegs, segLookup])
    (fun b _ => parseBoolean_ok b)]
  rw [optField_roundtrip (g := Json.bool) (o := bidir)
    (by rw [lookupField_segsToFields]; simp [connectionSegs, segLookup])
    (fun b _ => parseBoolean_ok b)]
  rw [optField_roundtrip (g := fun d => Json.str d.toWire) (o := flow)
    (by rw [lookupField_segsToFields]; simp [connectionSegs, segLookup])
    (fun d _ => parseDataFlow_ok d)]
  rw [optField_roundtrip (g := Json.num) (o := rps)
    (by rw [lookupField_segsToFields]; simp [connectionSegs, segLookup])
    (fun q _ => parseNumber_ok q)]
  rw [optField_roundtrip (g := Json.num) (o := lat)
    (by rw [lookupField_segsToFields]; simp [connectionSegs, segLookup])
    (fun q _ => parseNumber_ok q)]
  rw [optField_roundtrip (g := Json.num) (o := er)
    (by rw [lookupField_segsToFields]; simp [connectionSegs, segLookup])
    (fun q _ => parseNumber_ok q)]
  rw [optField_roundtrip (g := Json.obj) (o := md)
    (by rw [lookupField_segsToFields]; simp [connectionSegs, segLookup])
    (fun m _ => parseRecordAny_ok m)]
  rfl

theorem parseConnectionList_roundtrip (cs : List ArchitectureConnection)
    (h : connectionListValid cs = true) :
    ∀ i, parseConnectionList i (cs.map connectionToJson) = .ok cs := by
  induction cs with
  | nil => intro i; rfl
  | cons c rest ih =>
    intro i
    rw [connectionListValid, Bool.and_eq_true] at h
    rw [List.map_cons, parseConnectionList, ih h.2 (i+1)]
    have hc : atIdx i (parseConnection (connectionToJson c)) = .ok c := by
      rw [parseConnection_roundtrip c h.1]; rfl
    rw [hc]
    rfl

end Soar

namespace Soar

mutual

theorem parseNode_roundtrip (n : ArchitectureNode) (h : nodeValid n = true) :
    parseNode (nodeToJson n) = .ok n := by
  match n with
  | .mk i name ty desc pos col sz par ch fp ls le te la fr he me re inst md =>
    rw [nodeValid.eq_def] at h
    simp only [Bool.and_eq_true, decide_eq_true_eq] at h
    obtain ⟨⟨⟨⟨⟨⟨hi, hn⟩, hsz⟩, hls⟩, hle⟩, hinst⟩, hch⟩ := h
    rw [nodeToJson.eq_def]
    simp only [parseNode.eq_def]
    rw [reqField_of_lookup (v := Json.str i)
      (by rw [lookupField_segsToFields]; simp [segLookup])
      (parseNonEmptyString_ok _ hi)]
    rw [reqField_of_lookup (v := Json.str name)
      (by rw [lookupField_segsToFields]; simp [segLookup])
      (parseNonEmptyString_ok _ hn)]
    rw [reqField_of_lookup (v := Json.str ty.toWire)
      (by rw [lookupField_segsToFields]; simp [segLookup])
      (parseNodeType_ok ty)]
    rw [optField_roundtrip (g := Json.str) (o := desc)
      (by rw [lookupField_segsToFields]; simp [segLookup])
      (fun s _ => parseString_ok s)]
    rw [optField_roundtrip (g := position3DToJson) (o := pos)
      (by rw [lookupField_segsToFields]; simp [segLookup])
      (fun p _ => parsePosition3D_roundtrip p)]
    rw [optField_roundtrip (g := Json.str) (o := col)
      (by rw [lookupField_segsToFields]; simp [segLookup])
      (fun s _ => parseString_ok s)]
    rw [optField_roundtrip (g := Json.num) (o := sz)
      (by rw [lookupField_segsToFields]; simp [segLookup])
      (parsePositiveNumber_of_valid hsz)]
    rw [optField_roundtrip (g := Json.str) (o := par)
      (by rw [lookupField_segsToFields]; simp [segLookup])
      (fun s _ => parseString_ok s)]
    rw [optField_roundtrip (g := Json.str) (o := fp)
      (by rw [lookupField_segsToFields]; simp [segLookup])
      (fun s _ => parseString_ok s)]
    rw [optField_roundtrip (g := Json.num) (o := ls)
      (by rw [lookupField_segsToFields]; simp [segLookup])
      (parsePositiveInt_of_valid hls)]
    rw [optField_roundtrip (g := Json.num) (o := le)
      (by rw [lookupField_segsToFields]; simp [segLookup])
      (parsePositiveInt_of_valid hle)]
    rw [optField_roundtrip (g := Json.str) (o := te)
      (by rw [lookupField_segsToFields]; simp [segLookup])
      (fun s _ => parseString_ok s)]
    rw [optField_roundtrip (g := Json.str) (o := la)
      (by rw [lookupField_segsToFields]; simp [segLookup])
      (fun s _ => parseString_ok s)]
    rw [optField_roundtrip (g := Json.str) (o := fr)
      (by rw [lookupField_segsToFields]; simp [segLookup])
      (fun s _ => parseString_ok s)]
    rw [optField_roundtrip (g := fun hs => Json.str hs.toWire) (o := he)
      (by rw [lookupField_segsToFields]; simp [segLookup])
      (fun hs _ => parseHealthStatus_ok hs)]
    rw [optField_roundtrip (g := nodeMetricsToJson) (o := me)
      (by rw [lookupField_segsToFields]; simp [segLookup])
      (fun m _ => parseNodeMetrics_roundtrip m)]
    rw [optField_roundtrip (g := Json.str) (o := re)
      (by rw [lookupField_segsToFields]; simp [segLookup])
      (fun s _ => parseString_ok s)]
    rw [optField_roundtrip (g := Json.num) (o := inst)
      (by rw [lookupField_segsToFields]; simp [segLookup])
      (parsePositiveInt_of_valid hinst)]
    rw [optField_roundtrip (g := Json.obj) (o := md)
      (by rw [lookupField_segsToFields]; simp [segLookup])
      (fun m _ => parseRecordAny_ok m)]
    rw [parseChildrenField.eq_def]
    cases hcheq : ch with
    | none =>
      split
      · rfl
      · rename_i xs heq
        rw [lookupField_segsToFields] at heq
        simp [segLookup] at heq
      · rename_i v hne heq
        rw [lookupField_segsToFields] at heq
        simp [segLookup] at heq
    | some cs =>
      rw [hcheq] at hch
      simp only at hch
      split
      · rename_i heq
        rw [lookupField_segsToFields] at heq
        simp [segLookup] at heq
      · rename_i xs heq
        rw [lookupField_segsToFields] at heq
        simp [segLookup] at heq
        subst heq
        rw [show atKey "children" ((parseNodeList 0 (nodeListToJson cs)).map some) =
            (.ok (some cs) : P (Option (List ArchitectureNode))) from by
          rw [parseNodeList_roundtrip cs hch 0]; rfl]
        rfl
      · rename_i v hne heq
        rw [lookupField_segsToFields] at heq
        simp [segLookup] at heq
        exact absurd heq.symm (hne (nodeListToJson cs))
termination_by sizeOf n
decreasing_by
  have hs : sizeOf ch = 1 + sizeOf cs := by rw [hcheq]; simp
  simp
  omega

theorem parseNodeList_roundtrip (ns : List ArchitectureNode)
    (h : nodeListValid ns = true) (i : Nat) :
    parseNodeList i (nodeListToJson ns) = .ok ns := by
  match ns with
  | [] => rw [nodeListToJson, parseNodeList]
  | n :: rest =>
    rw [nodeListValid, Bool.and_eq_true] at h
    rw [nodeListToJson, parseNodeList]
    rw [show atIdx i (parseNode (nodeToJson n)) = .ok n from by
      rw [parseNode_roundtrip n h.1]; rfl]
    rw [parseNodeList_roundtrip rest h.2 (i+1)]
    rfl
termination_by sizeOf ns
decreasing_by
  all_goals simp
  all_goals omega

end

end Soar

namespace Soar

@[simp] theorem pseq_ok_error {α β : Type} (f : α → β) (e : List Issue) :
    pseq (Except.ok f) (Except.error e : P α) = Except.error e := rfl

@[simp] theorem pseq_error_ok {α β : Type} (e : List Issue) (a : α) :
    pseq (Except.error e : P (α → β)) (Except.ok a) = Except.error e := rfl

@[simp] theorem pseq_error_error {α β : Type} (e₁ e₂ : List Issue) :
    pseq (Except.error e₁ : P (α → β)) (Except.error e₂ : P α) = Except.error (e₁ ++ e₂) := rfl

theorem nodeListToJson_length (ns : List ArchitectureNode) :
    (nodeListToJson ns).length = ns.length := by
  induction ns with
  | nil => rw [nodeListToJson]; rfl
  | cons n rest ih => rw [nodeListToJson]; simp [ih]

theorem parseNodesArray_roundtrip (ns : List ArchitectureNode)
    (hlen : 1 ≤ ns.length) (h : nodeListValid ns = true) :
    parseNodesArray (Json.arr (nodeListToJson ns)) = .ok ns := by
  rw [parseNodesArray]
  have hmin : nodesMinCheck (nodeListToJson ns) = .ok () := by
    rw [nodesMinCheck]
    rw [nodeListToJson_length ns]
    have : ¬(ns.length < 1) := by omega
    simp [this]
  rw [hmin, parseNodeList_roundtrip ns h 0]
  rfl

theorem parseConnectionsArray_roundtrip (cs : List ArchitectureConnection)
    (h : connectionListValid cs = true) :
    parseConnectionsArray (Json.arr (cs.map connectionToJson)) = .ok cs := by
  rw [parseConnectionsArray]
  exact parseConnectionList_roundtrip cs h 0

theorem parseLayout_of_layoutOptValid {o : Option Layout} (h : layoutOptValid o = true) :
    ∀ l, o = some l → parseLayout (layoutToJson l) = .ok l := by
  intro l hl
  subst hl
  exact parseLayout_roundtrip l h

theorem parseArchitecture_roundtrip (a : Architecture)
    (h : architectureValid a = true) :
    parseArchitecture (architectureToJson a) = .ok a := by
  rw [architectureValid] at h
  simp only [Bool.and_eq_true, decide_eq_true_eq] at h
  obtain ⟨⟨⟨⟨⟨hnm, hver⟩, hlen⟩, hnodes⟩, hconns⟩, hlay⟩ := h
  obtain ⟨nm, ver, desc, gen, src, nodes, conns, lay, dv⟩ := a
  simp only at hnm hver hlen hnodes hconns hlay
  rw [architectureToJson, parseArchitecture]
  rw [reqField_of_lookup (v := Json.str nm)
    (by rw [lookupField_segsToFields]; simp [architectureSegs, segLookup])
    (parseNonEmptyString_ok _ hnm)]
  rw [reqField_of_lookup (v := Json.str ver)
    (by rw [lookupField_segsToFields]; simp [architectureSegs, segLookup])
    (parseNonEmptyString_ok _ hver)]
  rw [optField_roundtrip (g := Json.str) (o := desc)
    (by rw [lookupField_segsToFields]; simp [architectureSegs, segLookup])
    (fun s _ => parseString_ok s)]
  rw [optField_roundtrip (g := Json.str) (o := gen)
    (by rw [lookupField_segsToFields]; simp [architectureSegs, segLookup])
    (fun s _ => parseString_ok s)]
  rw [optField_roundtrip (g := Json.str) (o := src)
    (by rw [lookupField_segsToFields]; simp [architectureSegs, segLookup])
    (fun s _ => parseString_ok s)]
  rw [reqField_of_lookup (v := Json.arr (nodeListToJson nodes))
    (by rw [lookupField_segsToFields]; simp [architectureSegs, segLookup])
    (parseNodesArray_roundtrip nodes hlen hnodes)]
  rw [reqField_of_lookup (v := Json.arr (conns.map connectionToJson))
    (by rw [lookupField_segsToFields]; simp [architectureSegs, segLookup])
    (parseConnectionsArray_roundtrip conns hconns)]
  rw [optField_roundtrip (g := layoutToJson) (o := lay)
    (by rw [lookupField_segsToFields]; simp [architectureSegs, segLookup])
    (parseLayout_of_layoutOptValid hlay)]
  rw [optField_roundtrip (g := defaultViewToJson) (o := dv)
    (by rw [lookupField_segsToFields]; simp [architectureSegs, segLookup])
    (fun v _ => parseDefaultView_roundtrip v)]
  rfl

/-- The round-trip at the envelope level (shared helper). -/
theorem parseAnalysisResult_roundtrip (r : AnalysisResult)
    (h : analysisResultValid r = true) :
    parseAnalysisResult (analysisResultToJson r) = .ok r := by
  rw [analysisResultValid] at h
  obtain ⟨arch, summary, insights, warnings⟩ := r
  simp only at h
  rw [analysisResultToJson, parseAnalysisResult]
  rw [reqField_of_lookup (v := architectureToJson arch) (by simp [lookupField])
    (parseArchitecture_roundtrip arch h)]
  rw [reqField_of_lookup (v := Json.str summary) (by simp [lookupField])
    (parseString_ok summary)]
  rw [reqField_of_lookup (v := Json.arr (insights.map Json.str)) (by simp [lookupField])
    (parseStringArray_roundtrip insights)]
  rw [reqField_of_lookup (v := Json.arr (warnings.map Json.str)) (by simp [lookupField])
    (parseStringArray_roundtrip warnings)]
  rfl

/-- Shared helper: serialize-then-validate is the identity on valid envelopes. -/
theorem validateRoundtripAux (r : AnalysisResult) (h : analysisResultValid r = true) :
    validateArchitecture (analysisResultToJson r) = ValidationResult.ok r := by
  rw [validateArchitecture, parseAnalysisResult_roundtrip r h]

/-! ### Claim C3: the wire-format round trip -/

/-- C3: for every `AnalysisResult` whose graph satisfies the structural
invariants of §3 (non-empty name/version, at least one node, positive
numerics where required, recursively valid children), serializing it to the
wire envelope and validating the result succeeds and returns the very same
value, nested subtrees included (Lean equality is structural). -/
theorem validateArchitecture_roundtrip (r : AnalysisResult)
    (h : analysisResultValid r = true) :
    validateArchitecture (analysisResultToJson r) = ValidationResult.ok r :=
  validateRoundtripAux r h

/-- A two-level sample graph used to witness the round-trip theorems. -/
def sampleChild : ArchitectureNode :=
  .mk "child" "Child" NodeType.module none none none none none none
    none none none none none none none none none none none

def sampleRoot : ArchitectureNode :=
  .mk "n1" "Svc" NodeType.service none none none none none (some [sampleChild])
    none none none none none none none none none none none

def sampleArchitecture : Architecture :=
  ⟨"App", "1.0", none, none, none, [sampleRoot],
   [⟨"c1", "n1", "child", ConnectionType.http, none, none, none, none, none,
     none, none, none, none, none⟩], none, none⟩

def sampleResult : AnalysisResult := ⟨sampleArchitecture, "ok", [], []⟩

theorem sampleResult_valid : analysisResultValid sampleResult = true := by
  simp only [sampleResult, sampleArchitecture, sampleRoot, sampleChild,
    analysisResultValid, architectureValid, connectionListValid, connectionValid,
    layoutOptValid, posOptValid, posIntOptValid, nodeListValid, nodeValid]
  decide

/-- Witness for C3 at a concrete two-level graph. -/
theorem validateArchitecture_roundtrip_witness :
    analysisResultValid sampleResult = true ∧
    validateArchitecture (analysisResultToJson sampleResult) =
      ValidationResult.ok sampleResult :=
  ⟨sampleResult_valid, validateArchitecture_roundtrip sampleResult sampleResult_valid⟩

end Soar

namespace Soar

/-! ### Claim C9: Scenario A validates successfully -/

/-- The typed value Scenario A parses to. -/
def scenarioAResult : AnalysisResult :=
  ⟨⟨"Shop", "1.0", none, none, none,
    [ArchitectureNode.mk "n1" "Svc" NodeType.service none none none none none none
      none none none none none none none none none none none],
    [⟨"c1", "n1", "n1", ConnectionType.http, none, none, none, none, none,
      none, none, none, none, none⟩], none, none⟩, "ok", [], []⟩

theorem scenarioAResult_valid : analysisResultValid scenarioAResult = true := by
  simp only [scenarioAResult, analysisResultValid, architectureValid,
    connectionListValid, connectionValid, layoutOptValid, posOptValid,
    posIntOptValid, nodeListValid, nodeValid]
  decide

/-- C9: the envelope with required name and version, one `service` node
`n1`, one self-loop `http` edge `c1`, a summary string and empty
insights/warnings validates successfully. -/
theorem validateArchitecture_scenarioA :
    validateArchitecture (Json.obj
      [("architecture", Json.obj
        [("name", Json.str "Shop"),
         ("version", Json.str "1.0"),
         ("nodes", Json.arr
           [Json.obj [("id", Json.str "n1"), ("name", Json.str "Svc"),
                      ("type", Json.str "service")]]),
         ("connections", Json.arr
           [Json.obj [("id", Json.str "c1"), ("sourceId", Json.str "n1"),
                      ("targetId", Json.str "n1"), ("type", Json.str "http")]])]),
       ("summary", Json.str "ok"),
       ("insights", Json.arr []),
       ("warnings", Json.arr [])]) = ValidationResult.ok scenarioAResult := by
  have hser : analysisResultToJson scenarioAResult = Json.obj
      [("architecture", Json.obj
        [("name", Json.str "Shop"),
         ("version", Json.str "1.0"),
         ("nodes", Json.arr
           [Json.obj [("id", Json.str "n1"), ("name", Json.str "Svc"),
                      ("type", Json.str "service")]]),
         ("connections", Json.arr
           [Json.obj [("id", Json.str "c1"), ("sourceId", Json.str "n1"),
                      ("targetId", Json.str "n1"), ("type", Json.str "http")]])]),
       ("summary", Json.str "ok"),
       ("insights", Json.arr []),
       ("warnings", Json.arr [])] := by
    simp [analysisResultToJson, architectureToJson, architectureSegs, segsToFields,
      connectionToJson, connectionSegs, scenarioAResult, NodeType.toWire,
      ConnectionType.toWire, nodeListToJson.eq_def, nodeToJson.eq_def]
  rw [← hser]
  exact validateRoundtripAux scenarioAResult scenarioAResult_valid

/-! ### Claim C8: the empty-nodes envelope fails with exactly one violation -/

/-- Replace the graph's node list with the empty list, all else unchanged. -/
def withEmptyNodes (r : AnalysisResult) : AnalysisResult :=
  ⟨⟨r.architecture.name, r.architecture.version, r.architecture.description,
    r.architecture.generatedAt, r.architecture.sourceRepository, [],
    r.architecture.connections, r.architecture.layout, r.architecture.defaultView⟩,
   r.summary, r.insights, r.warnings⟩

/-- C8: an envelope that is otherwise fully valid but has `architecture.nodes = []`
fails validation with exactly one violation, at path `architecture.nodes`, whose
message is the minimum-node-count message and whose code is `too_small`. -/
theorem validateArchitecture_emptyNodes (r : AnalysisResult)
    (h : analysisResultValid r = true) :
    validateArchitecture (analysisResultToJson (withEmptyNodes r)) =
      ValidationResult.err
        [⟨"architecture.nodes", "Architecture must have at least one node", "too_small"⟩] := by
  rw [analysisResultValid, architectureValid] at h
  simp only [Bool.and_eq_true, decide_eq_true_eq] at h
  obtain ⟨⟨⟨⟨⟨hnm, hver⟩, _⟩, _⟩, hconns⟩, hlay⟩ := h
  obtain ⟨⟨nm, ver, desc, gen, src, nodes, conns, lay, dv⟩, summary, insights, warnings⟩ := r
  simp only at hnm hver hconns hlay
  rw [withEmptyNodes]
  simp only
  have harch : parseArchitecture (architectureToJson
      ⟨nm, ver, desc, gen, src, [], conns, lay, dv⟩) =
      .error [⟨[PathItem.key "nodes"], "Architecture must have at least one node",
        "too_small"⟩] := by
    rw [architectureToJson, parseArchitecture]
    rw [reqField_of_lookup (v := Json.str nm)
      (by rw [lookupField_segsToFields]; simp [architectureSegs, segLookup])
      (parseNonEmptyString_ok _ hnm)]
    rw [reqField_of_lookup (v := Json.str ver)
      (by rw [lookupField_segsToFields]; simp [architectureSegs, segLookup])
      (parseNonEmptyString_ok _ hver)]
    rw [optField_roundtrip (g := Json.str) (o := desc)
      (by rw [lookupField_segsToFields]; simp [architectureSegs, segLookup])
      (fun s _ => parseString_ok s)]
    rw [optField_roundtrip (g := Json.str) (o := gen)
      (by rw [lookupField_segsToFields]; simp [architectureSegs, segLookup])
      (fun s _ => parseString_ok s)]
    rw [optField_roundtrip (g := Json.str) (o := src)
      (by rw [lookupField_segsToFields]; simp [architectureSegs, segLookup])
      (fun s _ => parseString_ok s)]
    rw [reqField_of_lookup (v := Json.arr (conns.map connectionToJson))
      (by rw [lookupField_segsToFields]; simp [architectureSegs, segLookup])
      (parseConnectionsArray_roundtrip conns hconns)]
    rw [optField_roundtrip (g := layoutToJson) (o := lay)
      (by rw [lookupField_segsToFields]; simp [architectureSegs, segLookup])
      (parseLayout_of_layoutOptValid hlay)]
    rw [optField_roundtrip (g := defaultViewToJson) (o := dv)
      (by rw [lookupField_segsToFields]; simp [architectureSegs, segLookup])
      (fun v _ => parseDefaultView_roundtrip v)]
    have hn : reqField (segsToFields (architectureSegs ⟨nm, ver, desc, gen, src, [],
        conns, lay, dv⟩)) "nodes" parseNodesArray =
        .error [⟨[PathItem.key "nodes"], "Architecture must have at least one node",
          "too_small"⟩] := by
      have hlk : lookupField (segsToFields (architectureSegs ⟨nm, ver, desc, gen, src, [],
          conns, lay, dv⟩)) "nodes" = some (Json.arr (nodeListToJson [])) := by
        rw [lookupField_segsToFields]
        simp [architectureSegs, segLookup]
      rw [reqField, hlk]
      rw [show nodeListToJson [] = [] from by rw [nodeListToJson]]
      have hpn : parseNodeList 0 ([] : List Json) = .ok [] := by rw [parseNodeList]
      simp [parseNodesArray, nodesMinCheck, hpn, atKey, pseq, keyPrefix]
    rw [hn]
    simp [pseq]
  rw [validateArchitecture, analysisResultToJson]
  simp only
  rw [parseAnalysisResult]
  rw [reqField_of_lookup_error
    (v := architectureToJson ⟨nm, ver, desc, gen, src, [], conns, lay, dv⟩)
    (by simp [lookupField]) harch]
  rw [reqField_of_lookup (v := Json.str summary) (by simp [lookupField])
    (parseString_ok summary)]
  rw [reqField_of_lookup (v := Json.arr (insights.map Json.str)) (by simp [lookupField])
    (parseStringArray_roundtrip insights)]
  rw [reqField_of_lookup (v := Json.arr (warnings.map Json.str)) (by simp [lookupField])
    (parseStringArray_roundtrip warnings)]
  simp [pseq, keyPrefix, formatZodErrors, formatIssue, renderPath, renderPathItem,
    String.intercalate]
  decide

/-- Witness for C8 at the concrete sample graph. -/
theorem validateArchitecture_emptyNodes_witness :
    analysisResultValid sampleResult = true ∧
    validateArchitecture (analysisResultToJson (withEmptyNodes sampleResult)) =
      ValidationResult.err
        [⟨"architecture.nodes", "Architecture must have at least one node", "too_small"⟩] :=
  ⟨sampleResult_valid, validateArchitecture_emptyNodes sampleResult sampleResult_valid⟩

end Soar

namespace Soar

/-! ### Claim C7: recursive validation to unbounded depth, full index chains -/

/-- A chain of single-child nodes `n` levels deep whose innermost node has an
empty `id`; every other field is valid. -/
def deepBadNode : Nat → Json
  | 0 => Json.obj [("id", Json.str ""), ("name", Json.str "X"), ("type", Json.str "service")]
  | n+1 => Json.obj [("id", Json.str "a"), ("name", Json.str "X"),
      ("type", Json.str "service"), ("children", Json.arr [deepBadNode n])]

/-- The expected issue path inside the node subtree at depth `n`. -/
def deepBadPath : Nat → List PathItem
  | 0 => [PathItem.key "id"]
  | n+1 => PathItem.key "children" :: PathItem.idx 0 :: deepBadPath n

theorem parseNode_deepBadNode (n : Nat) :
    parseNode (deepBadNode n) =
      .error [⟨deepBadPath n, "Node id is required", "too_small"⟩] := by
  induction n with
  | zero =>
    rw [deepBadNode, deepBadPath]
    simp only [parseNode.eq_def]
    simp [reqField, optField, lookupField, parseChildrenField.eq_def,
      parseNonEmptyString, parseEnum,
      nodeTypeOfString, atKey, keyPrefix, pseq,
      show ("" : String).length = 0 from by decide,
      show ¬(("X" : String).length = 0) from by decide]
  | succ n ih =>
    rw [deepBadNode, deepBadPath]
    simp only [parseNode.eq_def]
    have h1 : parseNodeList 1 ([] : List Json) = .ok [] := by rw [parseNodeList]
    have h0 : parseNodeList 0 [deepBadNode n] =
        .error [⟨PathItem.idx 0 :: deepBadPath n, "Node id is required", "too_small"⟩] := by
      rw [parseNodeList, ih, h1]
      simp [atIdx, idxPrefix, pseq]
    simp [reqField, optField, lookupField, parseChildrenField.eq_def,
      parseNonEmptyString, parseEnum,
      nodeTypeOfString, atKey, keyPrefix, pseq, h0, Except.map,
      show ¬(("X" : String).length = 0) from by decide,
      show ¬(("a" : String).length = 0) from by decide]

/-- The envelope wrapping a single deep bad node. -/
def deepBadEnvelope (n : Nat) : Json :=
  Json.obj [("architecture", Json.obj
    [("name", Json.str "App"), ("version", Json.str "1"),
     ("nodes", Json.arr [deepBadNode n]),
     ("connections", Json.arr [])]),
   ("summary", Json.str "ok"), ("insights", Json.arr []), ("warnings", Json.arr [])]

/-- C7: validation recurses into children with the same rules at unbounded
depth: for every `n`, the envelope whose node nests `n` levels down to a
node with an empty id fails with exactly the one violation whose dotted
path carries the whole index chain; at `n = 2` that path renders as
`architecture.nodes.0.children.0.children.0.id`. -/
theorem validateArchitecture_deepChain (n : Nat) :
    validateArchitecture (deepBadEnvelope n) = ValidationResult.err
      [⟨renderPath (PathItem.key "architecture" :: PathItem.key "nodes" ::
          PathItem.idx 0 :: deepBadPath n), "Node id is required", "too_small"⟩] ∧
    renderPath (PathItem.key "architecture" :: PathItem.key "nodes" ::
        PathItem.idx 0 :: deepBadPath 2) = "architecture.nodes.0.children.0.children.0.id" := by
  constructor
  · have h1 : parseNodeList 1 ([] : List Json) = .ok [] := by rw [parseNodeList]
    have h0 : parseNodeList 0 [deepBadNode n] =
        .error [⟨PathItem.idx 0 :: deepBadPath n, "Node id is required", "too_small"⟩] := by
      rw [parseNodeList, parseNode_deepBadNode n, h1]
      simp [atIdx, idxPrefix, pseq]
    have hc : parseConnectionList 0 ([] : List Json) = .ok [] := by rw [parseConnectionList]
    have hArch : parseArchitecture (Json.obj
        [("name", Json.str "App"), ("version", Json.str "1"),
         ("nodes", Json.arr [deepBadNode n]),
         ("connections", Json.arr [])]) = .error
        [⟨PathItem.key "nodes" :: PathItem.idx 0 :: deepBadPath n,
          "Node id is required", "too_small"⟩] := by
      rw [parseArchitecture]
      simp [reqField, optField, lookupField, parseNonEmptyString, parseString,
        parseNodesArray, parseConnectionsArray, nodesMinCheck, atKey, keyPrefix,
        pseq, h0, hc,
        show ¬(("App" : String).length = 0) from by decide,
        show ¬(("1" : String).length = 0) from by decide]
    rw [deepBadEnvelope, validateArchitecture, parseAnalysisResult]
    rw [reqField_of_lookup_error (v := Json.obj
        [("name", Json.str "App"), ("version", Json.str "1"),
         ("nodes", Json.arr [deepBadNode n]),
         ("connections", Json.arr [])]) (by simp [lookupField]) hArch]
    simp [reqField, optField, lookupField, parseString, parseStringArray,
      parseStringList, atKey, keyPrefix, pseq, formatZodErrors, formatIssue,
      renderPath, renderPathItem, String.intercalate]
  · decide

end Soar

namespace Soar

/-! ### Claim C10: undeclared object keys are ignored and dropped -/

/-- The declared keys of the envelope object schema. -/
def envelopeKeys : List String := ["architecture", "summary", "insights", "warnings"]

/-- The declared keys of `ArchitectureSchema`. -/
def architectureKeys : List String :=
  ["name", "version", "description", "generatedAt", "sourceRepository",
   "nodes", "connections", "layout", "defaultView"]

/-- The declared keys of `ArchitectureNodeSchema`. -/
def nodeKeys : List String :=
  ["id", "name", "type", "description", "position", "color", "size", "parentId",
   "children", "filePath", "lineStart", "lineEnd", "technology", "language",
   "framework", "health", "metrics", "region", "instances", "metadata"]

/-- The declared keys of `ArchitectureConnectionSchema`. -/
def connectionKeys : List String :=
  ["id", "sourceId", "targetId", "type", "label", "color", "thickness", "animated",
   "bidirectional", "dataFlow", "requestsPerSecond", "latencyMs", "errorRate", "metadata"]

theorem lookupField_append_ne {fs : List (String × Json)} {k k' : String} {v : Json}
    (h : k' ≠ k) : lookupField (fs ++ [(k, v)]) k' = lookupField fs k' := by
  induction fs with
  | nil =>
    simp [lookupField]
    exact fun he => h he.symm
  | cons p rest ih =>
    obtain ⟨k₂, v₂⟩ := p
    by_cases hk : k₂ = k' <;> simp [lookupField, hk, ih]

theorem reqField_append_ne {α : Type} {fs : List (String × Json)} {k k' : String}
    {v : Json} {p : Json → P α} (h : k' ≠ k) :
    reqField (fs ++ [(k, v)]) k' p = reqField fs k' p := by
  rw [reqField, reqField, lookupField_append_ne h]

theorem optField_append_ne {α : Type} {fs : List (String × Json)} {k k' : String}
    {v : Json} {p : Json → P α} (h : k' ≠ k) :
    optField (fs ++ [(k, v)]) k' p = optField fs k' p := by
  rw [optField, optField, lookupField_append_ne h]

/-- Lemma: `parseConnection` ignores an appended undeclared key. -/
theorem parseConnection_ignores_unknown (fs : List (String × Json)) (k : String)
    (v : Json) (hk : k ∉ connectionKeys) :
    parseConnection (Json.obj (fs ++ [(k, v)])) = parseConnection (Json.obj fs) := by
  simp [connectionKeys] at hk
  obtain ⟨h1, h2, h3, h4, h5, h6, h7, h8, h9, h10, h11, h12, h13, h14⟩ := hk
  rw [parseConnection, parseConnection]
  rw [reqField_append_ne (fun he => h1 he.symm), reqField_append_ne (fun he => h2 he.symm),
    reqField_append_ne (fun he => h3 he.symm), reqField_append_ne (fun he => h4 he.symm),
    optField_append_ne (fun he => h5 he.symm), optField_append_ne (fun he => h6 he.symm),
    optField_append_ne (fun he => h7 he.symm), optField_append_ne (fun he => h8 he.symm),
    optField_append_ne (fun he => h9 he.symm), optField_append_ne (fun he => h10 he.symm),
    optField_append_ne (fun he => h11 he.symm), optField_append_ne (fun he => h12 he.symm),
    optField_append_ne (fun he => h13 he.symm), optField_append_ne (fun he => h14 he.symm)]

/-- Lemma: `parseChildrenField` only inspects the `children` key. -/
theorem parseChildrenField_append_ne (fs : List (String × Json)) (k : String)
    (v : Json) (hk : k ≠ "children") :
    parseChildrenField (fs ++ [(k, v)]) = parseChildrenField fs := by
  have hch : lookupField (fs ++ [(k, v)]) "children" = lookupField fs "children" :=
    lookupField_append_ne (fun he => hk he.symm)
  rw [parseChildrenField.eq_def, parseChildrenField.eq_def]
  split
  · next heq =>
    rw [hch] at heq
    split
    · rfl
    · next heq2 => rw [heq] at heq2; exact absurd heq2 (by simp)
    · next heq2 => rw [heq] at heq2; exact absurd heq2 (by simp)
  · next xs heq =>
    rw [hch] at heq
    split
    · next heq2 => rw [heq] at heq2; exact absurd heq2 (by simp)
    · next xs2 heq2 =>
      rw [heq] at heq2
      simp only [Option.some.injEq, Json.arr.injEq] at heq2
      rw [heq2]
    · next v2 hne2 heq2 =>
      rw [heq] at heq2
      simp only [Option.some.injEq] at heq2
      subst heq2
      simp_all
  · next v1 hne heq =>
    rw [hch] at heq
    split
    · next heq2 => rw [heq] at heq2; exact absurd heq2 (by simp)
    · next xs2 heq2 =>
      rw [heq] at heq2
      simp only [Option.some.injEq] at heq2
      subst heq2
      simp_all
    · next v2 hne2 heq2 =>
      rw [heq] at heq2
      simp only [Option.some.injEq] at heq2
      rw [heq2]

/-- Lemma: `parseNode` ignores an appended undeclared key. -/
theorem parseNode_ignores_unknown (fs : List (String × Json)) (k : String)
    (v : Json) (hk : k ∉ nodeKeys) :
    parseNode (Json.obj (fs ++ [(k, v)])) = parseNode (Json.obj fs) := by
  simp [nodeKeys] at hk
  obtain ⟨h1, h2, h3, h4, h5, h6, h7, h8, h9, h10, h11, h12, h13, h14, h15, h16,
    h17, h18, h19, h20⟩ := hk
  simp only [parseNode.eq_def]
  rw [reqField_append_ne (fun he => h1 he.symm), reqField_append_ne (fun he => h2 he.symm),
    reqField_append_ne (fun he => h3 he.symm), optField_append_ne (fun he => h4 he.symm),
    optField_append_ne (fun he => h5 he.symm), optField_append_ne (fun he => h6 he.symm),
    optField_append_ne (fun he => h7 he.symm), optField_append_ne (fun he => h8 he.symm),
    optField_append_ne (fun he => h10 he.symm), optField_append_ne (fun he => h11 he.symm),
    optField_append_ne (fun he => h12 he.symm), optField_append_ne (fun he => h13 he.symm),
    optField_append_ne (fun he => h14 he.symm), optField_append_ne (fun he => h15 he.symm),
    optField_append_ne (fun he => h16 he.symm), optField_append_ne (fun he => h17 he.symm),
    optField_append_ne (fun he => h18 he.symm), optField_append_ne (fun he => h19 he.symm),
    optField_append_ne (fun he => h20 he.symm),
    parseChildrenField_append_ne fs k v h9]

/-- Lemma: `parseArchitecture` ignores an appended undeclared key. -/
theorem parseArchitecture_ignores_unknown (fs : List (String × Json)) (k : String)
    (v : Json) (hk : k ∉ architectureKeys) :
    parseArchitecture (Json.obj (fs ++ [(k, v)])) = parseArchitecture (Json.obj fs) := by
  simp [architectureKeys] at hk
  obtain ⟨h1, h2, h3, h4, h5, h6, h7, h8, h9⟩ := hk
  rw [parseArchitecture, parseArchitecture]
  rw [reqField_append_ne (fun he => h1 he.symm), reqField_append_ne (fun he => h2 he.symm),
    optField_append_ne (fun he => h3 he.symm), optField_append_ne (fun he => h4 he.symm),
    optField_append_ne (fun he => h5 he.symm), reqField_append_ne (fun he => h6 he.symm),
    reqField_append_ne (fun he => h7 he.symm), optField_append_ne (fun he => h8 he.symm),
    optField_append_ne (fun he => h9 he.symm)]

/-- The envelope parser ignores an appended undeclared key. -/
theorem parseAnalysisResult_ignores_unknown (fs : List (String × Json)) (k : String)
    (v : Json) (hk : k ∉ envelopeKeys) :
    parseAnalysisResult (Json.obj (fs ++ [(k, v)])) = parseAnalysisResult (Json.obj fs) := by
  simp [envelopeKeys] at hk
  obtain ⟨h1, h2, h3, h4⟩ := hk
  rw [parseAnalysisResult, parseAnalysisResult]
  rw [reqField_append_ne (fun he => h1 he.symm), reqField_append_ne (fun he => h2 he.symm),
    reqField_append_ne (fun he => h3 he.symm), reqField_append_ne (fun he => h4 he.symm)]

/-- The keys of a serialized object. -/
def objKeys : Json → List String
  | .obj fs => fs.map Prod.fst
  | _ => []

theorem segsToFields_keys_subset (segs : List (String × Option Json)) :
    (segsToFields segs).map Prod.fst ⊆ segs.map Prod.fst := by
  induction segs with
  | nil => simp [segsToFields]
  | cons p rest ih =>
    obtain ⟨k, o⟩ := p
    cases o with
    | none => simp [segsToFields]; exact List.Subset.trans ih (List.subset_cons_self _ _)
    | some v =>
      simp [segsToFields]
      exact List.Subset.trans ih (List.subset_cons_self _ _)

/-- Every key a serialized node carries is a declared node key. -/
theorem nodeToJson_keys (n : ArchitectureNode) : objKeys (nodeToJson n) ⊆ nodeKeys := by
  match n with
  | .mk i name ty desc pos col sz par ch fp ls le te la fr he me re inst md =>
    rw [nodeToJson.eq_def]
    rw [objKeys]
    refine List.Subset.trans (segsToFields_keys_subset _) ?_
    intro x hx
    simp at hx
    simp [nodeKeys]
    tauto

/-- Every key the serialized envelope carries is a declared envelope key. -/
theorem analysisResultToJson_keys (r : AnalysisResult) :
    objKeys (analysisResultToJson r) ⊆ envelopeKeys := by
  rw [analysisResultToJson, objKeys]
  intro x hx
  simp at hx
  simp [envelopeKeys]
  tauto

/-- C10: successful validation silently drops undeclared keys rather than
rejecting them or passing them through.  Appending an undeclared key to the
envelope, the architecture, a node or an edge object changes nothing about
the validation outcome (in particular it is not rejected, and the returned
data is that of the stripped object); entries of a declared `metadata` map
are preserved verbatim; and re-serializing any parsed value produces only
declared keys, so an input carrying extra keys differs from what the
returned envelope contains. -/
theorem validateArchitecture_strips_unknown (fs : List (String × Json)) (k : String)
    (v : Json) :
    (k ∉ envelopeKeys →
      validateArchitecture (Json.obj (fs ++ [(k, v)])) =
        validateArchitecture (Json.obj fs)) ∧
    (k ∉ architectureKeys →
      parseArchitecture (Json.obj (fs ++ [(k, v)])) = parseArchitecture (Json.obj fs)) ∧
    (k ∉ nodeKeys →
      parseNode (Json.obj (fs ++ [(k, v)])) = parseNode (Json.obj fs)) ∧
    (k ∉ connectionKeys →
      parseConnection (Json.obj (fs ++ [(k, v)])) = parseConnection (Json.obj fs)) ∧
    parseRecordAny (Json.obj fs) = .ok fs ∧
    (∀ n : ArchitectureNode, objKeys (nodeToJson n) ⊆ nodeKeys) ∧
    (∀ r : AnalysisResult, objKeys (analysisResultToJson r) ⊆ envelopeKeys) := by
  refine ⟨?_, parseArchitecture_ignores_unknown fs k v, parseNode_ignores_unknown fs k v,
    parseConnection_ignores_unknown fs k v, rfl, nodeToJson_keys, analysisResultToJson_keys⟩
  intro hk
  rw [validateArchitecture, validateArchitecture,
    parseAnalysisResult_ignores_unknown fs k v hk]

/-- Witness for C10: an `extra` key on Scenario A's envelope is dropped. -/
theorem validateArchitecture_strips_unknown_witness :
    ("extra" ∉ envelopeKeys) ∧
    validateArchitecture (Json.obj
      ([("architecture", Json.obj
        [("name", Json.str "Shop"),
         ("version", Json.str "1.0"),
         ("nodes", Json.arr
           [Json.obj [("id", Json.str "n1"), ("name", Json.str "Svc"),
                      ("type", Json.str "service")]]),
         ("connections", Json.arr
           [Json.obj [("id", Json.str "c1"), ("sourceId", Json.str "n1"),
                      ("targetId", Json.str "n1"), ("type", Json.str "http")]])]),
       ("summary", Json.str "ok"),
       ("insights", Json.arr []),
       ("warnings", Json.arr [])] ++ [("extra", Json.str "dropped")])) =
      validateArchitecture (Json.obj
      [("architecture", Json.obj
        [("name", Json.str "Shop"),
         ("version", Json.str "1.0"),
         ("nodes", Json.arr
           [Json.obj [("id", Json.str "n1"), ("name", Json.str "Svc"),
                      ("type", Json.str "service")]]),
         ("connections", Json.arr
           [Json.obj [("id", Json.str "c1"), ("sourceId", Json.str "n1"),
                      ("targetId", Json.str "n1"), ("type", Json.str "http")]])]),
       ("summary", Json.str "ok"),
       ("insights", Json.arr []),
       ("warnings", Json.arr [])]) :=
  ⟨by decide,
   (validateArchitecture_strips_unknown _ "extra" (Json.str "dropped")).1 (by decide)⟩

end Soar

namespace Soar

/-! ### Claim C2: document order of the reported violation list

A global rank on keys: within every object schema of this validator, shape
declaration order is rank-increasing, so path components can be compared
pointwise.  `docLe` is the document order on issue paths: a prefix comes
first (Zod emits an aggregate issue such as an array `min` before the
element issues), array indices compare numerically, object keys by shape
rank. -/

def keyRank (k : String) : Nat :=
  match k with
  | "architecture" => 0
  | "id" => 1
  | "sourceId" => 2
  | "targetId" => 3
  | "name" => 4
  | "version" => 5
  | "type" => 6
  | "description" => 7
  | "generatedAt" => 8
  | "sourceRepository" => 9
  | "position" => 10
  | "label" => 11
  | "color" => 12
  | "size" => 13
  | "thickness" => 14
  | "animated" => 15
  | "bidirectional" => 16
  | "dataFlow" => 17
  | "parentId" => 18
  | "children" => 19
  | "filePath" => 20
  | "lineStart" => 21
  | "lineEnd" => 22
  | "technology" => 23
  | "language" => 24
  | "framework" => 25
  | "health" => 26
  | "metrics" => 27
  | "requestsPerSecond" => 28
  | "latencyMs" => 29
  | "errorRate" => 30
  | "cpuPercent" => 31
  | "memoryPercent" => 32
  | "region" => 33
  | "instances" => 34
  | "nodes" => 35
  | "connections" => 36
  | "metadata" => 37
  | "layout" => 38
  | "spacing" => 39
  | "layers" => 40
  | "target" => 41
  | "detailLevel" => 42
  | "defaultView" => 43
  | "summary" => 44
  | "insights" => 45
  | "warnings" => 46
  | "x" => 47
  | "y" => 48
  | "z" => 49
  | _ => 1000

/-- Strict order on single path components under the same parent. -/
def rankLtB : PathItem → PathItem → Bool
  | .key a, .key b => decide (keyRank a < keyRank b)
  | .idx m, .idx n => decide (m < n)
  | _, _ => false

/-- Document order on issue paths (non-strict; prefix-first). -/
def docLe : List PathItem → List PathItem → Bool
  | [], _ => true
  | _ :: _, [] => false
  | a :: p, b :: q => rankLtB a b || (a == b && docLe p q)

/-- The issue list is sorted in document order. -/
def IssuesOrdered (l : List Issue) : Prop :=
  List.Pairwise (fun a b => docLe a.path b.path = true) l

@[simp] theorem docLe_nil_left (q : List PathItem) : docLe [] q = true := by
  cases q <;> rfl

theorem docLe_cons_same {p q : List PathItem} (c : PathItem) (h : docLe p q = true) :
    docLe (c :: p) (c :: q) = true := by
  rw [docLe]
  simp [h]

theorem docLe_cons_lt {a b : PathItem} (p q : List PathItem) (h : rankLtB a b = true) :
    docLe (a :: p) (b :: q) = true := by
  rw [docLe]
  simp [h]

theorem issuesOrdered_nil : IssuesOrdered [] := List.Pairwise.nil

theorem issuesOrdered_singleton (i : Issue) : IssuesOrdered [i] := by
  rw [IssuesOrdered]
  exact List.pairwise_singleton _ _

/-- Issues all located at the current node (empty local path) are ordered. -/
theorem issuesOrdered_allNil {l : List Issue} (h : ∀ e ∈ l, e.path = []) :
    IssuesOrdered l := by
  induction l with
  | nil => exact issuesOrdered_nil
  | cons a rest ih =>
    rw [IssuesOrdered, List.pairwise_cons]
    constructor
    · intro b _
      rw [h a (List.mem_cons_self _ _)]
      simp
    · exact ih (fun e he => h e (List.mem_cons_of_mem _ he))

theorem issuesOrdered_map_keyPrefix {l : List Issue} (k : String) (h : IssuesOrdered l) :
    IssuesOrdered (l.map (keyPrefix k)) := by
  rw [IssuesOrdered]
  refine List.Pairwise.map _ ?_ h
  intro a b hab
  rw [keyPrefix, keyPrefix]
  exact docLe_cons_same _ hab

theorem issuesOrdered_map_idxPrefix {l : List Issue} (n : Nat) (h : IssuesOrdered l) :
    IssuesOrdered (l.map (idxPrefix n)) := by
  rw [IssuesOrdered]
  refine List.Pairwise.map _ ?_ h
  intro a b hab
  rw [idxPrefix, idxPrefix]
  exact docLe_cons_same _ hab

/-- Every issue path in `l` starts with the object key `k`. -/
def RootedK (k : String) (l : List Issue) : Prop :=
  ∀ e ∈ l, ∃ r, e.path = PathItem.key k :: r

theorem rootedK_map_keyPrefix (k : String) (l : List Issue) :
    RootedK k (l.map (keyPrefix k)) := by
  intro e he
  simp [keyPrefix] at he
  obtain ⟨i, _, hi⟩ := he
  exact ⟨i.path, hi ▸ rfl⟩

/-- Ordered, and every path starts with a key of rank below `r`. -/
def OrderedBelow (r : Nat) (l : List Issue) : Prop :=
  IssuesOrdered l ∧ ∀ e ∈ l, ∃ k rest, e.path = PathItem.key k :: rest ∧ keyRank k < r

theorem orderedBelow_nil (r : Nat) : OrderedBelow r [] :=
  ⟨issuesOrdered_nil, by simp⟩

theorem orderedBelow_mono {r1 r2 : Nat} {l : List Issue} (h : OrderedBelow r1 l)
    (hr : r1 ≤ r2) : OrderedBelow r2 l := by
  refine ⟨h.1, ?_⟩
  intro e he
  obtain ⟨k, rest, hp, hk⟩ := h.2 e he
  exact ⟨k, rest, hp, lt_of_lt_of_le hk hr⟩

/-- Fold step for a shape-ordered object: append the issues of the next
field, whose key `k` ranks at or above everything so far. -/
theorem orderedBelow_step {q r : Nat} {l1 l2 : List Issue} {k : String}
    (h1 : OrderedBelow q l1) (h2 : IssuesOrdered l2) (h3 : RootedK k l2)
    (hr1 : q ≤ keyRank k) (hr2 : keyRank k < r) :
    OrderedBelow r (l1 ++ l2) := by
  constructor
  · rw [IssuesOrdered, List.pairwise_append]
    refine ⟨h1.1, h2, ?_⟩
    intro a ha b hb
    obtain ⟨ka, ra, hpa, hka⟩ := h1.2 a ha
    obtain ⟨rb, hpb⟩ := h3 b hb
    rw [hpa, hpb]
    refine docLe_cons_lt _ _ ?_
    rw [rankLtB]
    simp
    omega
  · intro e he
    rcases List.mem_append.1 he with hl | hr
    · obtain ⟨ka, ra, hpa, hka⟩ := h1.2 e hl
      exact ⟨ka, ra, hpa, by omega⟩
    · obtain ⟨rb, hpb⟩ := h3 e hr
      exact ⟨k, rb, hpb, hr2⟩

/-- Ordered, every path an index `≥ i` (the invariant of array parsing). -/
def OrderedIdxFrom (i : Nat) (l : List Issue) : Prop :=
  IssuesOrdered l ∧ ∀ e ∈ l, ∃ m r, e.path = PathItem.idx m :: r ∧ i ≤ m

theorem orderedIdxFrom_nil (i : Nat) : OrderedIdxFrom i [] :=
  ⟨issuesOrdered_nil, by simp⟩

theorem orderedIdxFrom_append {i : Nat} {l1 l2 : List Issue}
    (h1 : IssuesOrdered l1) (hr1 : ∀ e ∈ l1, ∃ r, e.path = PathItem.idx i :: r)
    (h2 : OrderedIdxFrom (i+1) l2) : OrderedIdxFrom i (l1 ++ l2) := by
  constructor
  · rw [IssuesOrdered, List.pairwise_append]
    refine ⟨h1, h2.1, ?_⟩
    intro a ha b hb
    obtain ⟨ra, hpa⟩ := hr1 a ha
    obtain ⟨m, rb, hpb, hm⟩ := h2.2 b hb
    rw [hpa, hpb]
    refine docLe_cons_lt _ _ ?_
    rw [rankLtB]
    simp
    omega
  · intro e he
    rcases List.mem_append.1 he with hl | hr
    · obtain ⟨ra, hpa⟩ := hr1 e hl
      exact ⟨i, ra, hpa, le_refl i⟩
    · obtain ⟨m, rb, hpb, hm⟩ := h2.2 e hr
      exact ⟨m, rb, hpb, by omega⟩

theorem rootedIdx_map_idxPrefix (i : Nat) (l : List Issue) :
    ∀ e ∈ l.map (idxPrefix i), ∃ r, e.path = PathItem.idx i :: r := by
  intro e he
  simp [idxPrefix] at he
  obtain ⟨a, _, ha⟩ := he
  exact ⟨a.path, ha ▸ rfl⟩

end Soar

namespace Soar

/-! Leaf parsers only ever report at the current location (empty local path). -/

theorem allNil_parseString (j : Json) : ∀ e ∈ errsOf (parseString j), e.path = [] := by
  cases j <;> simp [parseString, errsOf, typeIssue]

theorem allNil_parseNonEmptyString (msg : String) (j : Json) :
    ∀ e ∈ errsOf (parseNonEmptyString msg j), e.path = [] := by
  cases j
  case str =>
    rw [parseNonEmptyString]
    split <;> simp [errsOf]
  all_goals simp [parseNonEmptyString, errsOf, typeIssue]

theorem allNil_parseNumber (j : Json) : ∀ e ∈ errsOf (parseNumber j), e.path = [] := by
  cases j <;> simp [parseNumber, errsOf, typeIssue]

theorem allNil_parsePositiveNumber (j : Json) :
    ∀ e ∈ errsOf (parsePositiveNumber j), e.path = [] := by
  cases j
  case num =>
    rw [parsePositiveNumber]
    split <;> simp [errsOf]
  all_goals simp [parsePositiveNumber, errsOf, typeIssue]

theorem allNil_parsePositiveInt (j : Json) :
    ∀ e ∈ errsOf (parsePositiveInt j), e.path = [] := by
  cases j
  case num =>
    rw [parsePositiveInt]
    split
    · simp [errsOf]
    · intro e he
      simp only [errsOf] at he
      rcases List.mem_append.1 he with h | h
      · split at h <;> simp_all
      · split at h <;> simp_all
  all_goals simp [parsePositiveInt, errsOf, typeIssue]

theorem allNil_parseBoolean (j : Json) : ∀ e ∈ errsOf (parseBoolean j), e.path = [] := by
  cases j <;> simp [parseBoolean, errsOf, typeIssue]

theorem allNil_parseRecordAny (j : Json) :
    ∀ e ∈ errsOf (parseRecordAny j), e.path = [] := by
  cases j <;> simp [parseRecordAny, errsOf, typeIssue]

theorem allNil_parseEnum {α : Type} (ofString : String → Option α) (j : Json) :
    ∀ e ∈ errsOf (parseEnum ofString j), e.path = [] := by
  cases j
  case str =>
    rw [parseEnum]
    rename_i s
    cases ofString s <;> simp [errsOf]
  all_goals simp [parseEnum, errsOf, typeIssue]

/-! Field combinators: ordered and rooted at their key. -/

theorem ordered_errs_reqField {α : Type} (fs : List (String × Json))
    (k : String) (p : Json → P α) (hp : ∀ v, IssuesOrdered (errsOf (p v))) :
    IssuesOrdered (errsOf (reqField fs k p)) := by
  rw [reqField]
  cases lookupField fs k with
  | none => exact issuesOrdered_singleton _
  | some v =>
    rw [errsOf_atKey]
    exact issuesOrdered_map_keyPrefix k (hp v)

theorem rootedK_errs_reqField {α : Type} (fs : List (String × Json))
    (k : String) (p : Json → P α) : RootedK k (errsOf (reqField fs k p)) := by
  rw [reqField]
  cases lookupField fs k with
  | none =>
    intro e he
    simp [errsOf, requiredIssue] at he
    exact ⟨[], by rw [he]⟩
  | some v =>
    rw [errsOf_atKey]
    exact rootedK_map_keyPrefix k _

theorem ordered_errs_optField {α : Type} (fs : List (String × Json))
    (k : String) (p : Json → P α) (hp : ∀ v, IssuesOrdered (errsOf (p v))) :
    IssuesOrdered (errsOf (optField fs k p)) := by
  rw [optField]
  cases lookupField fs k with
  | none => exact issuesOrdered_nil
  | some v =>
    rw [errsOf_atKey, errsOf_map_some]
    exact issuesOrdered_map_keyPrefix k (hp v)

theorem rootedK_errs_optField {α : Type} (fs : List (String × Json))
    (k : String) (p : Json → P α) : RootedK k (errsOf (optField fs k p)) := by
  rw [optField]
  cases lookupField fs k with
  | none => intro e he; simp [errsOf] at he
  | some v =>
    rw [errsOf_atKey, errsOf_map_some]
    exact rootedK_map_keyPrefix k _

/-- A leaf field block: ordered from all-nil paths. -/
theorem ordered_of_allNil {α : Type} {p : P α} (h : ∀ e ∈ errsOf p, e.path = []) :
    IssuesOrdered (errsOf p) := issuesOrdered_allNil h

end Soar

namespace Soar

/-- A single field block, bounded above. -/
theorem orderedBelow_block {k : String} {r : Nat} {l2 : List Issue}
    (h2 : IssuesOrdered l2) (h3 : RootedK k l2) (hr2 : keyRank k < r) :
    OrderedBelow r l2 := by
  refine ⟨h2, ?_⟩
  intro e he
  obtain ⟨r, hp⟩ := h3 e he
  exact ⟨k, r, hp, hr2⟩

theorem ordered_parsePosition3D (j : Json) : IssuesOrdered (errsOf (parsePosition3D j)) := by
  cases j
  case obj fs =>
    rw [parsePosition3D]
    simp only [errsOf_pseq, errsOf_ok, List.nil_append]
    have o1 : OrderedBelow (keyRank "y") (errsOf (reqField fs "x" parseNumber)) :=
      orderedBelow_block
        (ordered_errs_reqField fs "x" parseNumber
          (fun v => ordered_of_allNil (allNil_parseNumber v)))
        (rootedK_errs_reqField fs "x" parseNumber) (by decide)
    have o2 := orderedBelow_step (r := keyRank "z") o1
      (ordered_errs_reqField fs "y" parseNumber
        (fun v => ordered_of_allNil (allNil_parseNumber v)))
      (rootedK_errs_reqField fs "y" parseNumber) (le_refl _) (by decide)
    have o3 := orderedBelow_step (r := 1000) o2
      (ordered_errs_reqField fs "z" parseNumber
        (fun v => ordered_of_allNil (allNil_parseNumber v)))
      (rootedK_errs_reqField fs "z" parseNumber) (le_refl _) (by decide)
    exact o3.1
  all_goals (simp only [parsePosition3D]; exact issuesOrdered_singleton _)

theorem ordered_parseNodeMetrics (j : Json) : IssuesOrdered (errsOf (parseNodeMetrics j)) := by
  cases j
  case obj fs =>
    rw [parseNodeMetrics]
    simp only [errsOf_pseq, errsOf_ok, List.nil_append]
    have o1 : OrderedBelow (keyRank "latencyMs")
        (errsOf (optField fs "requestsPerSecond" parseNumber)) :=
      orderedBelow_block
        (ordered_errs_optField fs "requestsPerSecond" parseNumber
          (fun v => ordered_of_allNil (allNil_parseNumber v)))
        (rootedK_errs_optField fs "requestsPerSecond" parseNumber) (by decide)
    have o2 := orderedBelow_step (r := keyRank "errorRate") o1
      (ordered_errs_optField fs "latencyMs" parseNumber
        (fun v => ordered_of_allNil (allNil_parseNumber v)))
      (rootedK_errs_optField fs "latencyMs" parseNumber) (le_refl _) (by decide)
    have o3 := orderedBelow_step (r := keyRank "cpuPercent") o2
      (ordered_errs_optField fs "errorRate" parseNumber
        (fun v => ordered_of_allNil (allNil_parseNumber v)))
      (rootedK_errs_optField fs "errorRate" parseNumber) (le_refl _) (by decide)
    have o4 := orderedBelow_step (r := keyRank "memoryPercent") o3
      (ordered_errs_optField fs "cpuPercent" parseNumber
        (fun v => ordered_of_allNil (allNil_parseNumber v)))
      (rootedK_errs_optField fs "cpuPercent" parseNumber) (le_refl _) (by decide)
    have o5 := orderedBelow_step (r := keyRank "connections") o4
      (ordered_errs_optField fs "memoryPercent" parseNumber
        (fun v => ordered_of_allNil (allNil_parseNumber v)))
      (rootedK_errs_optField fs "memoryPercent" parseNumber) (le_refl _) (by decide)
    have o6 := orderedBelow_step (r := 1000) o5
      (ordered_errs_optField fs "connections" parseNumber
        (fun v => ordered_of_allNil (allNil_parseNumber v)))
      (rootedK_errs_optField fs "connections" parseNumber) (le_refl _) (by decide)
    exact o6.1
  all_goals (simp only [parseNodeMetrics]; exact issuesOrdered_singleton _)

end Soar

namespace Soar

/-- The `children` block is rooted at its key. -/
theorem rootedK_parseChildrenField (fs : List (String × Json)) :
    RootedK "children" (errsOf (parseChildrenField fs)) := by
  rw [parseChildrenField.eq_def]
  split
  · intro e he
    simp [errsOf] at he
  · next xs heq =>
    rw [errsOf_atKey, errsOf_map_some]
    exact rootedK_map_keyPrefix _ _
  · next v hne heq =>
    rw [errsOf_atKey]
    exact rootedK_map_keyPrefix _ _


theorem ordered_parseStringList (xs : List Json) :
    ∀ i, OrderedIdxFrom i (errsOf (parseStringList i xs)) := by
  induction xs with
  | nil => intro i; rw [parseStringList]; exact orderedIdxFrom_nil i
  | cons x rest ih =>
    intro i
    rw [parseStringList]
    simp only [errsOf_pseq, errsOf_ok, List.nil_append, errsOf_atIdx]
    exact orderedIdxFrom_append
      (issuesOrdered_map_idxPrefix i (ordered_of_allNil (allNil_parseString x)))
      (rootedIdx_map_idxPrefix i _) (ih (i+1))

theorem ordered_parseStringArray (j : Json) : IssuesOrdered (errsOf (parseStringArray j)) := by
  cases j
  case arr xs => rw [parseStringArray]; exact (ordered_parseStringList xs 0).1
  all_goals (simp only [parseStringArray]; exact issuesOrdered_singleton _)

theorem ordered_parseLayersList (xs : List Json) :
    ∀ i, OrderedIdxFrom i (errsOf (parseLayersList i xs)) := by
  induction xs with
  | nil => intro i; rw [parseLayersList]; exact orderedIdxFrom_nil i
  | cons x rest ih =>
    intro i
    rw [parseLayersList]
    simp only [errsOf_pseq, errsOf_ok, List.nil_append, errsOf_atIdx]
    exact orderedIdxFrom_append
      (issuesOrdered_map_idxPrefix i (ordered_parseStringArray x))
      (rootedIdx_map_idxPrefix i _) (ih (i+1))

theorem ordered_parseLayersArray (j : Json) : IssuesOrdered (errsOf (parseLayersArray j)) := by
  cases j
  case arr xs => rw [parseLayersArray]; exact (ordered_parseLayersList xs 0).1
  all_goals (simp only [parseLayersArray]; exact issuesOrdered_singleton _)


theorem ordered_parseLayout (j : Json) : IssuesOrdered (errsOf (parseLayout j)) := by
  cases j
  case obj fs =>
    rw [parseLayout]
    simp only [errsOf_pseq, errsOf_ok, List.nil_append]
    have o1 := orderedBelow_block (r := keyRank "spacing")
      (ordered_errs_reqField fs "type" (parseEnum layoutTypeOfString)
        (fun v => ordered_of_allNil (allNil_parseEnum layoutTypeOfString v)))
      (rootedK_errs_reqField fs "type" (parseEnum layoutTypeOfString)) (by decide)
    have o2 := orderedBelow_step (r := keyRank "layers") o1
      (ordered_errs_optField fs "spacing" parsePositiveNumber
        (fun v => ordered_of_allNil (allNil_parsePositiveNumber v)))
      (rootedK_errs_optField fs "spacing" parsePositiveNumber) (le_refl _) (by decide)
    have o3 := orderedBelow_step (r := 1000) o2
      (ordered_errs_optField fs "layers" parseLayersArray
        (fun v => ordered_parseLayersArray v))
      (rootedK_errs_optField fs "layers" parseLayersArray) (le_refl _) (by decide)
    exact o3.1
  all_goals (simp only [parseLayout]; exact issuesOrdered_singleton _)


theorem ordered_parseDefaultView (j : Json) : IssuesOrdered (errsOf (parseDefaultView j)) := by
  cases j
  case obj fs =>
    rw [parseDefaultView]
    simp only [errsOf_pseq, errsOf_ok, List.nil_append]
    have o1 := orderedBelow_block (r := keyRank "target")
      (ordered_errs_reqField fs "position" parsePosition3D
        (fun v => ordered_parsePosition3D v))
      (rootedK_errs_reqField fs "position" parsePosition3D) (by decide)
    have o2 := orderedBelow_step (r := keyRank "detailLevel") o1
      (ordered_errs_reqField fs "target" parsePosition3D
        (fun v => ordered_parsePosition3D v))
      (rootedK_errs_reqField fs "target" parsePosition3D) (le_refl _) (by decide)
    have o3 := orderedBelow_step (r := 1000) o2
      (ordered_errs_reqField fs "detailLevel" (parseEnum detailLevelOfString)
        (fun v => ordered_of_allNil (allNil_parseEnum detailLevelOfString v)))
      (rootedK_errs_reqField fs "detailLevel" (parseEnum detailLevelOfString)) (le_refl _) (by decide)
    exact o3.1
  all_goals (simp only [parseDefaultView]; exact issuesOrdered_singleton _)


theorem ordered_parseConnection (j : Json) : IssuesOrdered (errsOf (parseConnection j)) := by
  cases j
  case obj fs =>
    rw [parseConnection]
    simp only [errsOf_pseq, errsOf_ok, List.nil_append]
    have o1 := orderedBelow_block (r := keyRank "sourceId")
      (ordered_errs_reqField fs "id" (parseNonEmptyString "Connection id is required")
        (fun v => ordered_of_allNil (allNil_parseNonEmptyString "Connection id is required" v)))
      (rootedK_errs_reqField fs "id" (parseNonEmptyString "Connection id is required")) (by decide)
    have o2 := orderedBelow_step (r := keyRank "targetId") o1
      (ordered_errs_reqField fs "sourceId" (parseNonEmptyString "Connection sourceId is required")
        (fun v => ordered_of_allNil (allNil_parseNonEmptyString "Connection sourceId is required" v)))
      (rootedK_errs_reqField fs "sourceId" (parseNonEmptyString "Connection sourceId is required")) (le_refl _) (by decide)
    have o3 := orderedBelow_step (r := keyRank "type") o2
      (ordered_errs_reqField fs "targetId" (parseNonEmptyString "Connection targetId is required")
        (fun v => ordered_of_allNil (allNil_parseNonEmptyString "Connection targetId is required" v)))
      (rootedK_errs_reqField fs "targetId" (parseNonEmptyString "Connection targetId is required")) (le_refl _) (by decide)
    have o4 := orderedBelow_step (r := keyRank "label") o3
      (ordered_errs_reqField fs "type" (parseEnum connectionTypeOfString)
        (fun v => ordered_of_allNil (allNil_parseEnum connectionTypeOfString v)))
      (rootedK_errs_reqField fs "type" (parseEnum connectionTypeOfString)) (le_refl _) (by decide)
    have o5 := orderedBelow_step (r := keyRank "color") o4
      (ordered_errs_optField fs "label" parseString
        (fun v => ordered_of_allNil (allNil_parseString v)))
      (rootedK_errs_optField fs "label" parseString) (le_refl _) (by decide)
    have o6 := orderedBelow_step (r := keyRank "thickness") o5
      (ordered_errs_optField fs "color" parseString
        (fun v => ordered_of_allNil (allNil_parseString v)))
      (rootedK_errs_optField fs "color" parseString) (le_refl _) (by decide)
    have o7 := orderedBelow_step (r := keyRank "animated") o6
      (ordered_errs_optField fs "thickness" parsePositiveNumber
        (fun v => ordered_of_allNil (allNil_parsePositiveNumber v)))
      (rootedK_errs_optField fs "thickness" parsePositiveNumber) (le_refl _) (by decide)
    have o8 := orderedBelow_step (r := keyRank "bidirectional") o7
      (ordered_errs_optField fs "animated" parseBoolean
        (fun v => ordered_of_allNil (allNil_parseBoolean v)))
      (rootedK_errs_optField fs "animated" parseBoolean) (le_refl _) (by decide)
    have o9 := orderedBelow_step (r := keyRank "dataFlow") o8
      (ordered_errs_optField fs "bidirectional" parseBoolean
        (fun v => ordered_of_allNil (allNil_parseBoolean v)))
      (rootedK_errs_optField fs "bidirectional" parseBoolean) (le_refl _) (by decide)
    have o10 := orderedBelow_step (r := keyRank "requestsPerSecond") o9
      (ordered_errs_optField fs "dataFlow" (parseEnum dataFlowOfString)
        (fun v => ordered_of_allNil (allNil_parseEnum dataFlowOfString v)))
      (rootedK_errs_optField fs "dataFlow" (parseEnum dataFlowOfString)) (le_refl _) (by decide)
    have o11 := orderedBelow_step (r := keyRank "latencyMs") o10
      (ordered_errs_optField fs "requestsPerSecond" parseNumber
        (fun v => ordered_of_allNil (allNil_parseNumber v)))
      (rootedK_errs_optField fs "requestsPerSecond" parseNumber) (le_refl _) (by decide)
    have o12 := orderedBelow_step (r := keyRank "errorRate") o11
      (ordered_errs_optField fs "latencyMs" parseNumber
        (fun v => ordered_of_allNil (allNil_parseNumber v)))
      (rootedK_errs_optField fs "latencyMs" parseNumber) (le_refl _) (by decide)
    have o13 := orderedBelow_step (r := keyRank "metadata") o12
      (ordered_errs_optField fs "errorRate" parseNumber
        (fun v => ordered_of_allNil (allNil_parseNumber v)))
      (rootedK_errs_optField fs "errorRate" parseNumber) (le_refl _) (by decide)
    have o14 := orderedBelow_step (r := 1000) o13
      (ordered_errs_optField fs "metadata" parseRecordAny
        (fun v => ordered_of_allNil (allNil_parseRecordAny v)))
      (rootedK_errs_optField fs "metadata" parseRecordAny) (le_refl _) (by decide)
    exact o14.1
  all_goals (simp only [parseConnection]; exact issuesOrdered_singleton _)

theorem ordered_parseConnectionList (xs : List Json) :
    ∀ i, OrderedIdxFrom i (errsOf (parseConnectionList i xs)) := by
  induction xs with
  | nil => intro i; rw [parseConnectionList]; exact orderedIdxFrom_nil i
  | cons x rest ih =>
    intro i
    rw [parseConnectionList]
    simp only [errsOf_pseq, errsOf_ok, List.nil_append, errsOf_atIdx]
    exact orderedIdxFrom_append
      (issuesOrdered_map_idxPrefix i (ordered_parseConnection x))
      (rootedIdx_map_idxPrefix i _) (ih (i+1))

theorem ordered_parseConnectionsArray (j : Json) :
    IssuesOrdered (errsOf (parseConnectionsArray j)) := by
  cases j
  case arr xs => rw [parseConnectionsArray]; exact (ordered_parseConnectionList xs 0).1
  all_goals (simp only [parseConnectionsArray]; exact issuesOrdered_singleton _)


mutual

theorem ordered_parseNode (j : Json) : IssuesOrdered (errsOf (parseNode j)) := by
  match j with
  | Json.null | Json.bool _ | Json.num _ | Json.str _ | Json.arr _ =>
    simp only [parseNode.eq_def]
    exact issuesOrdered_singleton _
  | Json.obj fs =>
    simp only [parseNode.eq_def]
    simp only [errsOf_pseq, errsOf_ok, List.nil_append]
    have o1 := orderedBelow_block (r := keyRank "name")
      (ordered_errs_reqField fs "id" (parseNonEmptyString "Node id is required")
        (fun v => ordered_of_allNil (allNil_parseNonEmptyString "Node id is required" v)))
      (rootedK_errs_reqField fs "id" (parseNonEmptyString "Node id is required")) (by decide)
    have o2 := orderedBelow_step (r := keyRank "type") o1
      (ordered_errs_reqField fs "name" (parseNonEmptyString "Node name is required")
        (fun v => ordered_of_allNil (allNil_parseNonEmptyString "Node name is required" v)))
      (rootedK_errs_reqField fs "name" (parseNonEmptyString "Node name is required")) (le_refl _) (by decide)
    have o3 := orderedBelow_step (r := keyRank "description") o2
      (ordered_errs_reqField fs "type" (parseEnum nodeTypeOfString)
        (fun v => ordered_of_allNil (allNil_parseEnum nodeTypeOfString v)))
      (rootedK_errs_reqField fs "type" (parseEnum nodeTypeOfString)) (le_refl _) (by decide)
    have o4 := orderedBelow_step (r := keyRank "position") o3
      (ordered_errs_optField fs "description" parseString
        (fun v => ordered_of_allNil (allNil_parseString v)))
      (rootedK_errs_optField fs "description" parseString) (le_refl _) (by decide)
    have o5 := orderedBelow_step (r := keyRank "color") o4
      (ordered_errs_optField fs "position" parsePosition3D
        (fun v => ordered_parsePosition3D v))
      (rootedK_errs_optField fs "position" parsePosition3D) (le_refl _) (by decide)
    have o6 := orderedBelow_step (r := keyRank "size") o5
      (ordered_errs_optField fs "color" parseString
        (fun v => ordered_of_allNil (allNil_parseString v)))
      (rootedK_errs_optField fs "color" parseString) (le_refl _) (by decide)
    have o7 := orderedBelow_step (r := keyRank "parentId") o6
      (ordered_errs_optField fs "size" parsePositiveNumber
        (fun v => ordered_of_allNil (allNil_parsePositiveNumber v)))
      (rootedK_errs_optField fs "size" parsePositiveNumber) (le_refl _) (by decide)
    have o8 := orderedBelow_step (r := keyRank "children") o7
      (ordered_errs_optField fs "parentId" parseString
        (fun v => ordered_of_allNil (allNil_parseString v)))
      (rootedK_errs_optField fs "parentId" parseString) (le_refl _) (by decide)
    have o9 := orderedBelow_step (r := keyRank "filePath") o8
      (ordered_parseChildrenField fs)
      (rootedK_parseChildrenField fs) (le_refl _) (by decide)
    have o10 := orderedBelow_step (r := keyRank "lineStart") o9
      (ordered_errs_optField fs "filePath" parseString
        (fun v => ordered_of_allNil (allNil_parseString v)))
      (rootedK_errs_optField fs "filePath" parseString) (le_refl _) (by decide)
    have o11 := orderedBelow_step (r := keyRank "lineEnd") o10
      (ordered_errs_optField fs "lineStart" parsePositiveInt
        (fun v => ordered_of_allNil (allNil_parsePositiveInt v)))
      (rootedK_errs_optField fs "lineStart" parsePositiveInt) (le_refl _) (by decide)
    have o12 := orderedBelow_step (r := keyRank "technology") o11
      (ordered_errs_optField fs "lineEnd" parsePositiveInt
        (fun v => ordered_of_allNil (allNil_parsePositiveInt v)))
      (rootedK_errs_optField fs "lineEnd" parsePositiveInt) (le_refl _) (by decide)
    have o13 := orderedBelow_step (r := keyRank "language") o12
      (ordered_errs_optField fs "technology" parseString
        (fun v => ordered_of_allNil (allNil_parseString v)))
      (rootedK_errs_optField fs "technology" parseString) (le_refl _) (by decide)
    have o14 := orderedBelow_step (r := keyRank "framework") o13
      (ordered_errs_optField fs "language" parseString
        (fun v => ordered_of_allNil (allNil_parseString v)))
      (rootedK_errs_optField fs "language" parseString) (le_refl _) (by decide)
    have o15 := orderedBelow_step (r := keyRank "health") o14
      (ordered_errs_optField fs "framework" parseString
        (fun v => ordered_of_allNil (allNil_parseString v)))
      (rootedK_errs_optField fs "framework" parseString) (le_refl _) (by decide)
    have o16 := orderedBelow_step (r := keyRank "metrics") o15
      (ordered_errs_optField fs "health" (parseEnum healthStatusOfString)
        (fun v => ordered_of_allNil (allNil_parseEnum healthStatusOfString v)))
      (rootedK_errs_optField fs "health" (parseEnum healthStatusOfString)) (le_refl _) (by decide)
    have o17 := orderedBelow_step (r := keyRank "region") o16
      (ordered_errs_optField fs "metrics" parseNodeMetrics
        (fun v => ordered_parseNodeMetrics v))
      (rootedK_errs_optField fs "metrics" parseNodeMetrics) (le_refl _) (by decide)
    have o18 := orderedBelow_step (r := keyRank "instances") o17
      (ordered_errs_optField fs "region" parseString
        (fun v => ordered_of_allNil (allNil_parseString v)))
      (rootedK_errs_optField fs "region" parseString) (le_refl _) (by decide)
    have o19 := orderedBelow_step (r := keyRank "metadata") o18
      (ordered_errs_optField fs "instances" parsePositiveInt
        (fun v => ordered_of_allNil (allNil_parsePositiveInt v)))
      (rootedK_errs_optField fs "instances" parsePositiveInt) (le_refl _) (by decide)
    have o20 := orderedBelow_step (r := 1000) o19
      (ordered_errs_optField fs "metadata" parseRecordAny
        (fun v => ordered_of_allNil (allNil_parseRecordAny v)))
      (rootedK_errs_optField fs "metadata" parseRecordAny) (le_refl _) (by decide)
    exact o20.1
termination_by sizeOf j
decreasing_by
  all_goals simp
  all_goals try omega

theorem ordered_parseChildrenField (fs : List (String × Json)) :
    IssuesOrdered (errsOf (parseChildrenField fs)) := by
  rw [parseChildrenField.eq_def]
  split
  · exact issuesOrdered_nil
  · next xs heq =>
    rw [errsOf_atKey, errsOf_map_some]
    exact issuesOrdered_map_keyPrefix _ (ordered_parseNodeList xs 0).1
  · next v hne heq =>
    rw [errsOf_atKey]
    exact issuesOrdered_map_keyPrefix _ (issuesOrdered_singleton _)
termination_by sizeOf fs
decreasing_by
  rename_i heq
  have h1 := sizeOf_lookupField_arr heq
  simp
  omega

theorem ordered_parseNodeList (xs : List Json) (i : Nat) :
    OrderedIdxFrom i (errsOf (parseNodeList i xs)) := by
  match xs with
  | [] => rw [parseNodeList]; exact orderedIdxFrom_nil i
  | x :: rest =>
    rw [parseNodeList]
    simp only [errsOf_pseq, errsOf_ok, List.nil_append, errsOf_atIdx]
    exact orderedIdxFrom_append
      (issuesOrdered_map_idxPrefix i (ordered_parseNode x))
      (rootedIdx_map_idxPrefix i _) (ordered_parseNodeList rest (i+1))
termination_by sizeOf xs
decreasing_by
  all_goals simp
  all_goals try omega

end

end Soar

namespace Soar

/-- Aggregate issues at the array itself (empty path) precede element issues. -/
theorem issuesOrdered_nilFirst_append {l1 l2 : List Issue}
    (h0 : ∀ e ∈ l1, e.path = []) (h1 : IssuesOrdered l1) (h2 : IssuesOrdered l2) :
    IssuesOrdered (l1 ++ l2) := by
  rw [IssuesOrdered, List.pairwise_append]
  refine ⟨h1, h2, ?_⟩
  intro a ha b hb
  rw [h0 a ha]
  simp

theorem allNil_nodesMinCheck (xs : List Json) :
    ∀ e ∈ errsOf (nodesMinCheck xs), e.path = [] := by
  rw [nodesMinCheck]
  split <;> simp [errsOf]

theorem ordered_nodesMinCheck (xs : List Json) : IssuesOrdered (errsOf (nodesMinCheck xs)) :=
  issuesOrdered_allNil (allNil_nodesMinCheck xs)

theorem ordered_parseNodesArray (j : Json) : IssuesOrdered (errsOf (parseNodesArray j)) := by
  cases j
  case arr xs =>
    rw [parseNodesArray]
    simp only [errsOf_pseq, errsOf_ok, List.nil_append]
    exact issuesOrdered_nilFirst_append (allNil_nodesMinCheck xs) (ordered_nodesMinCheck xs)
      (ordered_parseNodeList xs 0).1
  all_goals (simp only [parseNodesArray]; exact issuesOrdered_singleton _)

theorem ordered_parseArchitecture (j : Json) : IssuesOrdered (errsOf (parseArchitecture j)) := by
  cases j
  case obj fs =>
    rw [parseArchitecture]
    simp only [errsOf_pseq, errsOf_ok, List.nil_append]
    have o1 := orderedBelow_block (r := keyRank "version")
      (ordered_errs_reqField fs "name" (parseNonEmptyString "Architecture name is required")
        (fun v => ordered_of_allNil (allNil_parseNonEmptyString _ v)))
      (rootedK_errs_reqField fs "name" (parseNonEmptyString "Architecture name is required"))
      (by decide)
    have o2 := orderedBelow_step (r := keyRank "description") o1
      (ordered_errs_reqField fs "version" (parseNonEmptyString "Architecture version is required")
        (fun v => ordered_of_allNil (allNil_parseNonEmptyString _ v)))
      (rootedK_errs_reqField fs "version" (parseNonEmptyString "Architecture version is required"))
      (le_refl _) (by decide)
    have o3 := orderedBelow_step (r := keyRank "generatedAt") o2
      (ordered_errs_optField fs "description" parseString
        (fun v => ordered_of_allNil (allNil_parseString v)))
      (rootedK_errs_optField fs "description" parseString) (le_refl _) (by decide)
    have o4 := orderedBelow_step (r := keyRank "sourceRepository") o3
      (ordered_errs_optField fs "generatedAt" parseString
        (fun v => ordered_of_allNil (allNil_parseString v)))
      (rootedK_errs_optField fs "generatedAt" parseString) (le_refl _) (by decide)
    have o5 := orderedBelow_step (r := keyRank "nodes") o4
      (ordered_errs_optField fs "sourceRepository" parseString
        (fun v => ordered_of_allNil (allNil_parseString v)))
      (rootedK_errs_optField fs "sourceRepository" parseString) (le_refl _) (by decide)
    have o6 := orderedBelow_step (r := keyRank "connections") o5
      (ordered_errs_reqField fs "nodes" parseNodesArray
        (fun v => ordered_parseNodesArray v))
      (rootedK_errs_reqField fs "nodes" parseNodesArray) (le_refl _) (by decide)
    have o7 := orderedBelow_step (r := keyRank "layout") o6
      (ordered_errs_reqField fs "connections" parseConnectionsArray
        (fun v => ordered_parseConnectionsArray v))
      (rootedK_errs_reqField fs "connections" parseConnectionsArray) (le_refl _) (by decide)
    have o8 := orderedBelow_step (r := keyRank "defaultView") o7
      (ordered_errs_optField fs "layout" parseLayout
        (fun v => ordered_parseLayout v))
      (rootedK_errs_optField fs "layout" parseLayout) (le_refl _) (by decide)
    have o9 := orderedBelow_step (r := 1000) o8
      (ordered_errs_optField fs "defaultView" parseDefaultView
        (fun v => ordered_parseDefaultView v))
      (rootedK_errs_optField fs "defaultView" parseDefaultView) (le_refl _) (by decide)
    exact o9.1
  all_goals (simp only [parseArchitecture]; exact issuesOrdered_singleton _)

theorem ordered_parseAnalysisResult (j : Json) :
    IssuesOrdered (errsOf (parseAnalysisResult j)) := by
  cases j
  case obj fs =>
    rw [parseAnalysisResult]
    simp only [errsOf_pseq, errsOf_ok, List.nil_append]
    have o1 := orderedBelow_block (r := keyRank "summary")
      (ordered_errs_reqField fs "architecture" parseArchitecture
        (fun v => ordered_parseArchitecture v))
      (rootedK_errs_reqField fs "architecture" parseArchitecture) (by decide)
    have o2 := orderedBelow_step (r := keyRank "insights") o1
      (ordered_errs_reqField fs "summary" parseString
        (fun v => ordered_of_allNil (allNil_parseString v)))
      (rootedK_errs_reqField fs "summary" parseString) (le_refl _) (by decide)
    have o3 := orderedBelow_step (r := keyRank "warnings") o2
      (ordered_errs_reqField fs "insights" parseStringArray
        (fun v => ordered_parseStringArray v))
      (rootedK_errs_reqField fs "insights" parseStringArray) (le_refl _) (by decide)
    have o4 := orderedBelow_step (r := 1000) o3
      (ordered_errs_reqField fs "warnings" parseStringArray
        (fun v => ordered_parseStringArray v))
      (rootedK_errs_reqField fs "warnings" parseStringArray) (le_refl _) (by decide)
    exact o4.1
  all_goals (simp only [parseAnalysisResult]; exact issuesOrdered_singleton _)

/-- The per-element issue blocks of an array, indices ascending from `i`. -/
def idxBlocks (f : Json → List Issue) : Nat → List Json → List Issue
  | _, [] => []
  | i, x :: xs => (f x).map (idxPrefix i) ++ idxBlocks f (i+1) xs

/-- Completeness of array validation: the issues of a node array are exactly
the concatenation over all elements, each block prefixed by its index —
nothing is short-circuited at the first failing element. -/
theorem errsOf_parseNodeList_blocks (xs : List Json) :
    ∀ i, errsOf (parseNodeList i xs) = idxBlocks (fun x => errsOf (parseNode x)) i xs := by
  induction xs with
  | nil => intro i; rw [parseNodeList, idxBlocks]; rfl
  | cons x rest ih =>
    intro i
    rw [parseNodeList, idxBlocks]
    simp only [errsOf_pseq, errsOf_ok, List.nil_append, errsOf_atIdx]
    rw [ih (i+1)]

/-- The error list of `validateArchitecture` (empty on success). -/
def validationErrors (j : Json) : List ValidationError :=
  match validateArchitecture j with
  | .ok _ => []
  | .err e => e

/-- C2: multiple violations are reported together, in document order: the
issue list underlying `validateArchitecture` is sorted by `docLe` (outer
object fields before nested array elements — keys ranked by shape order —
and array elements in ascending index order, aggregate array issues
first); the reported list is exactly its formatting; array elements each
contribute their full issue block (no short-circuiting), and the envelope's
error list is the in-order concatenation of its four field blocks. -/
theorem validateArchitecture_reports_all_in_document_order (j : Json) :
    IssuesOrdered (errsOf (parseAnalysisResult j)) ∧
    validationErrors j = formatZodErrors (errsOf (parseAnalysisResult j)) ∧
    (∀ (i : Nat) (xs : List Json), errsOf (parseNodeList i xs) =
      idxBlocks (fun x => errsOf (parseNode x)) i xs) ∧
    (∀ fs : List (String × Json), errsOf (parseAnalysisResult (Json.obj fs)) =
      errsOf (reqField fs "architecture" parseArchitecture) ++
      (errsOf (reqField fs "summary" parseString) ++
       (errsOf (reqField fs "insights" parseStringArray) ++
        errsOf (reqField fs "warnings" parseStringArray)))) := by
  refine ⟨ordered_parseAnalysisResult j, ?_, fun i xs => errsOf_parseNodeList_blocks xs i, ?_⟩
  · rw [validationErrors, validateArchitecture]
    cases parseAnalysisResult j with
    | ok d => rfl
    | error es => rfl
  · intro fs
    rw [parseAnalysisResult]
    simp only [errsOf_pseq, errsOf_ok, List.nil_append, List.append_assoc]

end Soar
